import Mathlib

/-!
Verification of the autoppia decision-service core against its
natural-language specification.  The Python modules under `src/` are
shallowly embedded as executable Lean definitions: strings stay strings,
dicts become association lists, BeautifulSoup trees become an inductive
DOM type, and fallible operations return `Option`/`Except`.
-/

set_option maxHeartbeats 1000000
set_option maxRecDepth 100000

namespace Autoppia

/-! ### Python string-operation layer

Models of the Python `str` operations used by the source, working on the
underlying character lists.  Unicode-specific corner cases (non-ASCII
lowercasing, exotic whitespace) are modelled with their ASCII behaviour,
which is all the source relies on.
-/

/-- Python `s.lower()` (ASCII). -/
def pyLower (s : String) : String := String.mk (s.data.map Char.toLower)

/-- Python `s.startswith(p)`. -/
def pyStartsWith (s p : String) : Bool := p.data.isPrefixOf s.data

/-- Substring containment on character lists (`needle` occurs in `hay`). -/
def listContainsSub (needle : List Char) : List Char → Bool
  | [] => needle.isEmpty
  | c :: rest => needle.isPrefixOf (c :: rest) || listContainsSub needle rest

/-- Python `sub in s` for strings. -/
def pyInStr (sub s : String) : Bool := listContainsSub sub.data s.data

/-- Python `s[:n]` for a nonnegative bound. -/
def pyTake (s : String) (n : Nat) : String := String.mk (s.data.take n)

/-- Drop leading whitespace, on characters. -/
def dropWsLeft (l : List Char) : List Char := l.dropWhile Char.isWhitespace

/-- Python `s.strip()` (ASCII whitespace both ends). -/
def pyStrip (s : String) : String :=
  String.mk ((dropWsLeft s.data).reverse.dropWhile Char.isWhitespace).reverse

/-- Whitespace-collapsing core: runs of whitespace become a single space.
The flag records whether the previous character was whitespace. -/
def collapseWs : List Char → Bool → List Char
  | [], _ => []
  | c :: rest, prevWs =>
    if c.isWhitespace then
      if prevWs then collapseWs rest true else ' ' :: collapseWs rest true
    else c :: collapseWs rest false

/-- Python `re.sub(r"\s+", " ", s).strip()` as used by `_norm_ws` in
`parsing/labels.py` and `_norm_context_ws` in `parsing/candidates.py`. -/
def norm_ws (s : String) : String := pyStrip (String.mk (collapseWs s.data false))

/-- Accumulating core of whitespace splitting: `acc` is the current
word, reversed. -/
def splitWsAux : List Char → List Char → List String
  | [], acc => if acc.isEmpty then [] else [String.mk acc.reverse]
  | c :: rest, acc =>
    if c.isWhitespace then
      if acc.isEmpty then splitWsAux rest []
      else String.mk acc.reverse :: splitWsAux rest []
    else splitWsAux rest (c :: acc)

/-- Python `s.split()` (split on whitespace runs, dropping empties). -/
def pySplitWs (s : String) : List String := splitWsAux s.data []

/-- Python `sep.join(parts)`. -/
def pyJoin (sep : String) : List String → String
  | [] => ""
  | [x] => x
  | x :: y :: rest => x ++ sep ++ pyJoin sep (y :: rest)

/-! ### Attribute maps

`Candidate.attrs` and the BS4 element attribute dict, as a flat
string-to-string association list (`_attrs_to_str_map` has already
joined multi-valued attributes in the model). -/

abbrev Attrs := List (String × String)

/-- Python `attrs.get(k, d)`. -/
def attrGetD (a : Attrs) (k d : String) : String := (a.lookup k).getD d

/-- Python `k in attrs`. -/
def attrHas (a : Attrs) (k : String) : Bool := (a.lookup k).isSome

/-! ### Selector model (`models/selectors.py`)

The three Pydantic selector classes as one inductive.  The source passes
selectors around as `model_dump()` dicts and reads them back with
`.get("type"/"attribute"/"value"/"case_sensitive", default)`; the
accessors below model those dict reads. -/

inductive Selector where
  | attrVal (attrName : String) (value : String) (case_sensitive : Bool)
  | tagContains (value : String) (case_sensitive : Bool)
  | xpath (attrName : Option String) (value : String) (case_sensitive : Bool)
deriving Repr, DecidableEq

/-- `d.get("type", "")` of a dumped selector. -/
def selType : Selector → String
  | .attrVal _ _ _ => "attributeValueSelector"
  | .tagContains _ _ => "tagContainsSelector"
  | .xpath _ _ _ => "xpathSelector"

/-- `d.get("attribute", "")` of a dumped selector (`tagContainsSelector`
has no such key; `xpathSelector` dumps `None`, read back as default). -/
def selAttributeD : Selector → String
  | .attrVal a _ _ => a
  | .tagContains _ _ => ""
  | .xpath a _ _ => a.getD ""

/-- `d.get("value", d0)` of a dumped selector (always present). -/
def selValueD : Selector → String
  | .attrVal _ v _ => v
  | .tagContains v _ => v
  | .xpath _ v _ => v

/-- `d.get("case_sensitive", False)` of a dumped selector. -/
def selCaseD : Selector → Bool
  | .attrVal _ _ c => c
  | .tagContains _ c => c
  | .xpath _ _ c => c

/-- `sel_attr` factory from `models/selectors.py`. -/
def sel_attr (attrName value : String) : Selector := .attrVal attrName value false

/-- `sel_text` factory from `models/selectors.py`. -/
def sel_text (value : String) : Selector := .tagContains value false

/-! ### Selector resolver (`parsing/selectors.py`) -/

/-- `build_selector(tag, attrs, text)`: the priority chain
id > data-testid > href (non-javascript anchors) > aria-label > name >
placeholder > title > text (buttons/links) > tag-name fallback. -/
def build_selector (tag : String) (attrs : Attrs) (text : String) : Selector :=
  if attrGetD attrs "id" "" ≠ "" then
    sel_attr "id" (attrGetD attrs "id" "")
  else if attrGetD attrs "data-testid" "" ≠ "" then
    sel_attr "data-testid" (attrGetD attrs "data-testid" "")
  else if tag = "a" ∧ attrGetD attrs "href" "" ≠ "" ∧
      ¬ pyStartsWith (pyLower (attrGetD attrs "href" "")) "javascript:" then
    sel_attr "href" (attrGetD attrs "href" "")
  else if attrGetD attrs "aria-label" "" ≠ "" then
    sel_attr "aria-label" (attrGetD attrs "aria-label" "")
  else if attrGetD attrs "name" "" ≠ "" then
    sel_attr "name" (attrGetD attrs "name" "")
  else if attrGetD attrs "placeholder" "" ≠ "" then
    sel_attr "placeholder" (attrGetD attrs "placeholder" "")
  else if attrGetD attrs "title" "" ≠ "" then
    sel_attr "title" (attrGetD attrs "title" "")
  else if text ≠ "" ∧ (tag = "button" ∨ tag = "a") then
    sel_text text
  else
    sel_attr "custom" tag

/-! ### DOM model

A pruned BeautifulSoup tree as an inductive: element nodes carry a tag,
a flat attribute map and children; text nodes carry a string.  The value
handed to `extract_candidates` / `build_page_ir` plays the role of the
soup object: its own tag is never matched by queries (BS4's soup has the
synthetic name `[document]`), only its descendants are. -/

inductive DomNode where
  | elem (tag : String) (attrs : Attrs) (children : List DomNode)
  | textNode (s : String)
deriving Repr, Inhabited

/-- The tag of an element node, `none` for a text node (BS4 `.name`). -/
def nodeTag : DomNode → Option String
  | .elem t _ _ => some t
  | .textNode _ => none

mutual

/-- The text-node strings of a subtree, in document order. -/
def nodeStrings : DomNode → List String
  | .textNode s => [s]
  | .elem _ _ cs => nodeListStrings cs

/-- The text-node strings under a list of siblings, in document order. -/
def nodeListStrings : List DomNode → List String
  | [] => []
  | c :: rest => nodeStrings c ++ nodeListStrings rest

end

/-- BS4 `node.get_text(sep, strip=True)`: each string stripped, empties
dropped, the rest joined with `sep`. -/
def getTextSepStrip (n : DomNode) (sep : String) : String :=
  pyJoin sep (((nodeStrings n).map pyStrip).filter (fun t => ¬ t.isEmpty))

/-- BS4 `node.get_text(strip=True)` (empty separator). -/
def getTextStrip (n : DomNode) : String :=
  String.join (((nodeStrings n).map pyStrip).filter (fun t => ¬ t.isEmpty))

/-- An element as seen while iterating a soup: its own fields plus its
chain of ancestor nodes (nearest first), which stands in for BS4's
parent pointers. -/
structure ElemInfo where
  tag : String
  attrs : Attrs
  children : List DomNode
  ancestors : List DomNode
deriving Repr

/-- The element node an `ElemInfo` describes. -/
def ElemInfo.node (e : ElemInfo) : DomNode := .elem e.tag e.attrs e.children

mutual

/-- All element descendants of a node (the node itself included), in
document (preorder) order, with ancestor chains. -/
def elemsIn : DomNode → List DomNode → List ElemInfo
  | .textNode _, _ => []
  | .elem t a cs, anc => ⟨t, a, cs, anc⟩ :: elemsInList cs (.elem t a cs :: anc)

/-- All element descendants under a list of siblings, in document order. -/
def elemsInList : List DomNode → List DomNode → List ElemInfo
  | [], _ => []
  | c :: rest, anc => elemsIn c anc ++ elemsInList rest anc

end

/-- All elements of a soup in document order (the soup root itself is
not matched, as in BS4). -/
def allElems (soup : DomNode) : List ElemInfo :=
  match soup with
  | .textNode _ => []
  | .elem t a cs => elemsInList cs [DomNode.elem t a cs]

/-- BS4 `soup.find(id=lid)`: first element whose `id` attribute is `lid`. -/
def soupFindById (soup : DomNode) (lid : String) : Option ElemInfo :=
  (allElems soup).find? (fun e => e.attrs.lookup "id" == some lid)

/-- BS4 `soup.find("label", attrs={"for": idv})`. -/
def soupFindLabelFor (soup : DomNode) (idv : String) : Option ElemInfo :=
  (allElems soup).find? (fun e => e.tag == "label" && e.attrs.lookup "for" == some idv)

/-- BS4 `el.find_parent(tag)`: nearest ancestor element with that tag. -/
def findParent (e : ElemInfo) (tag : String) : Option DomNode :=
  e.ancestors.find? (fun n => nodeTag n == some tag)

/-! ### Element filter (`parsing/filtering.py`) -/

/-- `is_hidden(attrs)`: the six hiding signals. -/
def is_hidden (attrs : Attrs) : Bool :=
  if attrHas attrs "hidden" then true
  else if pyLower (attrGetD attrs "aria-hidden" "") == "true" then true
  else
    let style := pyLower (attrGetD attrs "style" "")
    if pyInStr "display:none" style || pyInStr "display: none" style then true
    else if pyInStr "visibility:hidden" style || pyInStr "visibility: hidden" style then true
    else
      let classes := pyLower (attrGetD attrs "class" "")
      (pySplitWs classes).any
        (fun token => token == "hidden" || token == "sr-only" || token == "invisible")

/-- `is_disabled(attrs)`. -/
def is_disabled (attrs : Attrs) : Bool :=
  attrHas attrs "disabled" || pyLower (attrGetD attrs "aria-disabled" "") == "true"

/-! ### Label inference (`parsing/labels.py`)

`infer_label` can raise an `IndexError` (`attrs["aria-labelledby"].split()[0]`
on a whitespace-only value), so it returns `Option String`, `none`
standing for the exception. -/

/-- Steps 7-8 of `infer_label`: the parent `<label>` wrapper, else `""`. -/
def inferLabelParentWrap (e : ElemInfo) : String :=
  match findParent e "label" with
  | some lab =>
    let t := norm_ws (getTextSepStrip lab " ")
    if t ≠ "" then pyTake t 120 else ""
  | none => ""

/-- Steps 6-8 of `infer_label`: associated `<label for=id>`, then the
parent-label fallback. -/
def inferLabelForId (soup : DomNode) (e : ElemInfo) : String :=
  if attrGetD e.attrs "id" "" ≠ "" then
    match soupFindLabelFor soup (attrGetD e.attrs "id" "") with
    | some lab =>
      let t := norm_ws (getTextSepStrip lab.node " ")
      if t ≠ "" then pyTake t 120 else inferLabelParentWrap e
    | none => inferLabelParentWrap e
  else inferLabelParentWrap e

/-- `infer_label(soup, el, attrs)`: inner text for buttons/links, then
aria-label / placeholder / title, then aria-labelledby, then label-for,
then parent label, else `""`. -/
def infer_label (soup : DomNode) (e : ElemInfo) : Option String :=
  let attrs := e.attrs
  let role := attrGetD attrs "role" ""
  let innerText :=
    if e.tag = "a" ∨ e.tag = "button" ∨ role = "button" ∨ role = "link" then
      norm_ws (getTextSepStrip e.node " ")
    else ""
  if innerText ≠ "" then some (pyTake innerText 120)
  else if attrGetD attrs "aria-label" "" ≠ "" then
    some (pyTake (norm_ws (attrGetD attrs "aria-label" "")) 120)
  else if attrGetD attrs "placeholder" "" ≠ "" then
    some (pyTake (norm_ws (attrGetD attrs "placeholder" "")) 120)
  else if attrGetD attrs "title" "" ≠ "" then
    some (pyTake (norm_ws (attrGetD attrs "title" "")) 120)
  else if attrGetD attrs "aria-labelledby" "" ≠ "" then
    match pySplitWs (attrGetD attrs "aria-labelledby" "") with
    | [] => none
    | lid :: _ =>
      match soupFindById soup lid with
      | some lab =>
        let t := norm_ws (getTextSepStrip lab.node " ")
        if t ≠ "" then some (pyTake t 120) else some (inferLabelForId soup e)
      | none => some (inferLabelForId soup e)
  else some (inferLabelForId soup e)

/-! ### Candidate extraction (`parsing/candidates.py`) -/

/-- An interactive element extracted from HTML (`Candidate` dataclass). -/
structure Candidate where
  id : Nat
  tag : String
  text : String
  selector : Selector
  attrs : Attrs
  label : String := ""
  parent_form : Option String := none
  input_type : String := ""
  placeholder : String := ""
  checked : Bool := false
  selected : Bool := false
  disabled : Bool := false
  current_value : String := ""
  options : List String := []
  context : String := ""
deriving Repr, DecidableEq

/-- The fixed interactive-element query list. -/
def INTERACTIVE_SELECTORS : List String :=
  ["button", "a[href]", "input", "textarea", "select",
   "[role=\x27button\x27]", "[role=\x27link\x27]"]

/-- Whether an element matches one of the seven fixed CSS queries. -/
def matchesCss (css : String) (e : ElemInfo) : Bool :=
  if css = "button" then e.tag == "button"
  else if css = "a[href]" then e.tag == "a" && attrHas e.attrs "href"
  else if css = "input" then e.tag == "input"
  else if css = "textarea" then e.tag == "textarea"
  else if css = "select" then e.tag == "select"
  else if css = "[role=\x27button\x27]" then attrs_role e == "button"
  else if css = "[role=\x27link\x27]" then attrs_role e == "link"
  else false
where
  attrs_role (e : ElemInfo) : String := attrGetD e.attrs "role" ""

/-- `_get_parent_form(el)`: enclosing form's `id` or `name`, or `none`. -/
def get_parent_form (e : ElemInfo) : Option String :=
  match findParent e "form" with
  | none => none
  | some f =>
    let fa : Attrs := match f with | .elem _ a _ => a | .textNode _ => []
    if attrGetD fa "id" "" ≠ "" then some (attrGetD fa "id" "")
    else if attrGetD fa "name" "" ≠ "" then some (attrGetD fa "name" "")
    else none

/-- `_get_select_options(el)`: non-empty option texts of a `<select>`. -/
def get_select_options (e : ElemInfo) : List String :=
  ((elemsInList e.children [e.node]).filter (fun o => o.tag == "option")).filterMap
    (fun o => let t := getTextStrip o.node; if t.isEmpty then none else some t)

/-- The walk of `_pick_context_container`: up to 8 ancestor levels,
stopping at body/html/document. -/
def pickContextWalk : List DomNode → Nat → String
  | _, 0 => ""
  | [], _ + 1 => ""
  | n :: rest, k + 1 =>
    match n with
    | .textNode _ => ""
    | .elem tag _ _ =>
      if tag = "body" ∨ tag = "html" ∨ tag = "[document]" then ""
      else
        let text := norm_ws (getTextSepStrip n " ")
        let tl := text.length
        if (tag = "li" ∨ tag = "tr" ∨ tag = "article") ∧ 20 < tl ∧ tl < 900 then
          pyTake text 180
        else if tag = "div" ∧ 50 < tl ∧ tl < 900 then pyTake text 180
        else pickContextWalk rest k

/-- `_pick_context_container(el)`: nearest card-like ancestor's text. -/
def pick_context_container (e : ElemInfo) : String := pickContextWalk e.ancestors 8

/-- The deduplication signature `(selector.type, attribute, value)`. -/
def candSig (sel : Selector) : String × String × String :=
  (selType sel, selAttributeD sel, selValueD sel)

/-- Extraction state: accepted candidates plus seen signatures. -/
abbrev ExtState := List Candidate × List (String × String × String)

/-- The body of the extraction loop for one matched element; `none`
models `infer_label` raising. -/
def extractStep (soup : DomNode) (st : ExtState) (e : ElemInfo) : Option ExtState :=
  if e.tag = "input" ∧ pyLower (attrGetD e.attrs "type" "") = "hidden" then some st
  else if is_hidden e.attrs || is_disabled e.attrs then some st
  else
    match infer_label soup e with
    | none => none
    | some label =>
      let selector := build_selector e.tag e.attrs label
      let sig := candSig selector
      if sig ∈ st.2 then some st
      else
        let c : Candidate :=
          { id := st.1.length
            tag := e.tag
            text := label
            selector := selector
            attrs := e.attrs
            label := label
            parent_form := get_parent_form e
            input_type := if e.tag = "input" then attrGetD e.attrs "type" "" else ""
            placeholder := attrGetD e.attrs "placeholder" ""
            checked := attrHas e.attrs "checked"
            current_value := attrGetD e.attrs "value" ""
            options := if e.tag = "select" then get_select_options e else []
            context := if e.tag = "a" ∨ e.tag = "button" then pick_context_container e else "" }
        some (st.1 ++ [c], sig :: st.2)

/-- `extract_candidates(html)` over a pruned soup: the two nested loops
(queries in the fixed order, matches in document order), with skipping,
dedup, and sequential ids; `none` models a raise inside label inference. -/
def extract_candidates (soup : DomNode) : Option (List Candidate) := do
  let st ← INTERACTIVE_SELECTORS.foldlM
    (fun st css => ((allElems soup).filter (matchesCss css)).foldlM (extractStep soup) st)
    (([], []) : ExtState)
  pure st.1

/-- The dedup invariant: candidate signatures are pairwise distinct and
all recorded in the seen set. -/
def dedupInv (st : ExtState) : Prop :=
  (st.1.map (fun c => candSig c.selector)).Nodup ∧
  ∀ c ∈ st.1, candSig c.selector ∈ st.2

/-! ### Page IR builder (`parsing/page_ir.py`) -/

/-- The attribute filter of `strip_presentation_attrs`: drops `class`,
`style`, and `data-*` except `data-testid`. -/
def stripAttrs (a : Attrs) : Attrs :=
  a.filter (fun p =>
    ¬ (p.1 = "class" ∨ p.1 = "style" ∨
       (pyStartsWith p.1 "data-" ∧ p.1 ≠ "data-testid")))

mutual

/-- `strip_presentation_attrs` over a whole tree (as a pure map). -/
def stripAttrsNode : DomNode → DomNode
  | .textNode s => .textNode s
  | .elem t a cs => .elem t (stripAttrs a) (stripAttrsList cs)

/-- `strip_presentation_attrs` over a list of siblings. -/
def stripAttrsList : List DomNode → List DomNode
  | [] => []
  | c :: r => stripAttrsNode c :: stripAttrsList r

end

/-- The parenthetical metadata items of `_format_candidate_compact`
(the `meta` list in the source): selector pair, form, current value,
options, and the `disabled` marker, in order, only when present. -/
def candidateMeta (c : Candidate) : List String :=
  (if selAttributeD c.selector ≠ "" ∧ selValueD c.selector ≠ "" ∧
      selAttributeD c.selector ≠ "custom"
   then [selAttributeD c.selector ++ "=" ++ pyTake (selValueD c.selector) 40] else []) ++
  (match c.parent_form with
   | some pf => if pf ≠ "" then ["form=" ++ pf] else []
   | none => []) ++
  (if c.current_value ≠ "" then ["val=" ++ pyTake c.current_value 30] else []) ++
  (if c.options ≠ [] then ["options=[" ++ pyJoin ", " (c.options.take 5) ++ "]"] else []) ++
  (if c.disabled then ["disabled"] else [])

/-- `_format_candidate_compact(c)`: the one-line rendering
`[id] tag "label" (meta, ...) -> "context"`. -/
def format_candidate_compact (c : Candidate) : String :=
  let label := if c.label ≠ "" then c.label else c.text
  let meta := candidateMeta c
  let parts : List String :=
    ["[" ++ Nat.repr c.id ++ "]"] ++
    [if c.input_type ≠ "" then c.tag ++ "[" ++ c.input_type ++ "]" else c.tag] ++
    (if label ≠ "" then ["\"" ++ pyTake label 60 ++ "\""] else []) ++
    (if meta ≠ [] then ["(" ++ pyJoin ", " meta ++ ")"] else []) ++
    (if (c.tag = "a" ∨ c.tag = "button") ∧ c.context ≠ "" ∧
        pyLower (pyStrip c.context) ≠
          pyLower (pyStrip (if c.label ≠ "" then c.label
                            else if c.text ≠ "" then c.text else ""))
     then ["-> \"" ++ pyTake c.context 120 ++ "\""] else [])
  pyJoin " " parts

/-- The heading lines of the Page Context section: one
`"  hN: text"` line per non-empty `h1`/`h2`/`h3` heading of the
attribute-stripped copy. -/
def irHeadLines (soup : DomNode) : List String :=
  ((allElems (stripAttrsNode soup)).filter
      (fun e => e.tag == "h1" || e.tag == "h2" || e.tag == "h3")).filterMap
    (fun e =>
      let text := pyTake (getTextStrip e.node) 80
      if text ≠ "" then some ("  " ++ e.tag ++ ": " ++ text) else none)

/-- The visible body text summary (500-char cap). -/
def irBodyText (soup : DomNode) : String :=
  pyTake (getTextSepStrip (stripAttrsNode soup) " ") 500

/-- The `lines` list assembled by `build_page_ir` before joining:
URL/TITLE header, heading section, optional TEXT summary, and one line
per candidate. -/
def buildLines (soup : DomNode) (url title : String) (candidates : List Candidate) :
    List String :=
  ["URL: " ++ url, "TITLE: " ++ title, "", "PAGE STRUCTURE:"] ++ irHeadLines soup ++
  (if irBodyText soup ≠ "" then ["TEXT: " ++ irBodyText soup] else []) ++
  [""] ++ ["INTERACTIVE ELEMENTS:"] ++ candidates.map format_candidate_compact

/-- `char_limit = int(max_tokens * 4 * 0.9)`; the integer form
`max_tokens * 36 / 10` agrees with the source's float computation at the
default `max_tokens = 1200` (giving 4320). -/
def charLimitOf (max_tokens : Nat) : Nat := max_tokens * 4 * 9 / 10

/-- The line buckets of `_truncate_ir`. -/
structure IRBuckets where
  header_lines : List String
  heading_lines : List String
  text_line : Option String
  element_lines : List String

/-- One step of the bucket-classification loop of `_truncate_ir`. -/
def bucketStep (b : IRBuckets) (line : String) : IRBuckets :=
  if pyStartsWith line "URL:" || pyStartsWith line "TITLE:" then
    { b with header_lines := b.header_lines ++ [line] }
  else if pyStartsWith line "  h" && pyInStr ":" (pyTake line 8) then
    { b with heading_lines := b.heading_lines ++ [line] }
  else if pyStartsWith line "TEXT:" then { b with text_line := some line }
  else if pyStartsWith line "[" then
    { b with element_lines := b.element_lines ++ [line] }
  else b

/-- The bucket-classification loop of `_truncate_ir`. -/
def bucketLines (lines : List String) : IRBuckets :=
  lines.foldl bucketStep ⟨[], [], none, []⟩

/-- The element-line loop of `_truncate_ir`: add lines while the budget
stays above the 80-char reserve, else emit the truncation notice and
stop.  Returns the added lines and the remaining budget. -/
def addElementLines (total : Nat) : List String → Int → Nat → List String × Int
  | [], budget, _ => ([], budget)
  | l :: rest, budget, included =>
    let cost : Int := (l.length : Int) + 1
    if budget - cost > 80 then
      let p := addElementLines total rest (budget - cost) (included + 1)
      (l :: p.1, p.2)
    else
      let remaining := total - included
      let notice := "... (" ++ Nat.repr remaining ++ " more elements truncated)"
      ([notice], budget - ((notice.length : Int) + 1))

/-- The heading-line loop of `_truncate_ir`: add lines while they fit. -/
def addHeadingLines : List String → Int → List String × Int
  | [], budget => ([], budget)
  | l :: rest, budget =>
    let cost : Int := (l.length : Int) + 1
    if budget - cost > 0 then
      let p := addHeadingLines rest (budget - cost)
      (l :: p.1, p.2)
    else ([], budget)

/-- The joined cost of a list of lines: each line plus one newline
(this is the `sum(len(l) + 1 for l in ...)` bookkeeping of
`_truncate_ir`). -/
def intLen (ls : List String) : Int := (ls.map (fun l => (l.length : Int) + 1)).sum

/-- The element-section budget of `_truncate_ir`: the cap minus the
always-kept header lines, blank line, and the
`INTERACTIVE ELEMENTS:` header. -/
def truncBudget1 (header_lines : List String) (char_limit : Nat) : Int :=
  (char_limit : Int) - intLen (header_lines ++ [""]) -
    ((("INTERACTIVE ELEMENTS:" : String).length : Int) + 1)

/-- The page-structure block of `_truncate_ir`: added only when over 100
budget remains after the element section. -/
def truncHeadPart (heading_lines : List String) (budget2 : Int) : List String × Int :=
  if budget2 > 100 ∧ heading_lines ≠ [] then
    let q := addHeadingLines heading_lines
      (budget2 - ((("PAGE STRUCTURE:" : String).length : Int) + 2))
    ("" :: "PAGE STRUCTURE:" :: q.1, q.2)
  else ([], budget2)

/-- The body-text tail of `_truncate_ir`: added only when over 200
budget remains, truncated to the remaining budget. -/
def truncTextPart (text_line : Option String) (budget4 : Int) : List String :=
  if budget4 > 200 then
    match text_line with
    | some t => [if (t.length : Int) > budget4 - 1 then pyTake t (budget4 - 1).toNat else t]
    | none => []
  else []

/-- `_truncate_ir` working from the classified buckets. -/
def truncateFromBuckets (b : IRBuckets) (char_limit : Nat) : String :=
  let ep := addElementLines b.element_lines.length b.element_lines
    (truncBudget1 b.header_lines char_limit) 0
  let hp := truncHeadPart b.heading_lines ep.2
  pyJoin "\n" (b.header_lines ++ [""] ++ ["INTERACTIVE ELEMENTS:"] ++ ep.1 ++ hp.1 ++
    truncTextPart b.text_line hp.2)

/-- `_truncate_ir(lines, candidates, char_limit)`: keep URL/TITLE and the
interactive-element section, then headings if over 100 budget remains,
then the TEXT line if over 200 remains (truncated to fit). -/
def truncateIR (lines : List String) (candidates : List Candidate) (char_limit : Nat) :
    String :=
  truncateFromBuckets (bucketLines lines) char_limit

/-- `build_page_ir(soup, url, title, candidates, max_tokens)`: join the
assembled lines; if over the character cap, re-render via `_truncate_ir`. -/
def build_page_ir (soup : DomNode) (url title : String) (candidates : List Candidate)
    (max_tokens : Nat) : String :=
  let char_limit := charLimitOf max_tokens
  let lines := buildLines soup url title candidates
  let ir_text := pyJoin "\n" lines
  if ir_text.length > char_limit then truncateIR lines candidates char_limit else ir_text

/-- A 4400-character URL; with the default budget (`char_limit` 4320)
the URL header line alone overflows the cap, and `_truncate_ir` always
keeps it. -/
def longUrl : String := String.mk (List.replicate 4400 'a')

/-- A small concrete page used by the extraction witnesses. -/
def soupEx : DomNode :=
  .elem "[document]" []
    [.elem "body" []
      [.elem "button" [("id", "b1")] [.textNode "Go"],
       .elem "a" [("href", "/home")] [.textNode "Home"],
       .elem "input" [("type", "text"), ("name", "q")] []]]

/-- The candidates extracted from `soupEx`. -/
def csEx : List Candidate := (extract_candidates soupEx).getD []

/-! ### Python JSON-ish values and decision dicts

The LLM decision is a JSON dict whose fields, per the Decision data
model, hold strings, integers (for `candidate_id`), or `None`.  It is
modelled as an association list over a small value type; `dget`/`dset`
model `dict.get` and `{**d, k: v}`. -/

inductive PyV where
  | vstr (s : String)
  | vint (n : Int)
  | vnone
deriving Repr, DecidableEq

/-- Python truthiness of a decision value. -/
def pyTruthy : PyV → Bool
  | .vstr s => ¬ s.isEmpty
  | .vint n => n ≠ 0
  | .vnone => false

/-- Python `v == k` for a string literal `k`. -/
def pyEq (v : PyV) (k : String) : Bool :=
  match v with
  | .vstr t => t == k
  | _ => false

/-- The digits of a decimal literal, if the list is non-empty and all
digits. -/
def parseDigits : List Char → Option Nat
  | [] => none
  | [c] => if c.isDigit then some (c.toNat - 48) else none
  | c :: rest =>
    if c.isDigit then
      match parseDigits rest with
      | some n => some ((c.toNat - 48) * 10 ^ rest.length + n)
      | none => none
    else none

/-- Python `int(s)` on a string: strip, optional sign, digits. -/
def py_int_of_string (s : String) : Option Int :=
  match (pyStrip s).data with
  | '+' :: rest => (parseDigits rest).map Int.ofNat
  | '-' :: rest => (parseDigits rest).map (fun n => -(n : Int))
  | l => (parseDigits l).map Int.ofNat

/-- Python `int(v)` under `try/except (ValueError, TypeError)`. -/
def py_int : PyV → Option Int
  | .vint n => some n
  | .vstr s => py_int_of_string s
  | .vnone => none

/-- A decision dict. -/
abbrev Decision := List (String × PyV)

/-- Python `d.get(k, dflt)`. -/
def dget (d : Decision) (k : String) (dflt : PyV) : PyV := (d.lookup k).getD dflt

/-- Python dict update `{**d, k: v}`: replace in place when the key is
present, else append. -/
def dset (d : Decision) (k : String) (v : PyV) : Decision :=
  if (d.lookup k).isSome then
    d.map (fun p => if p.1 = k then (k, v) else p)
  else d ++ [(k, v)]

/-! ### Exceptions of the action-building layer

Raising is modelled with `Except`; `build_action` is proved to stay in
`Except.ok` on decision dicts of the Decision data model. -/

inductive PyErr where
  | keyError (k : String)
  | typeError
  | valueError
  | indexError
  | attributeError
  | validationError
deriving Repr, DecidableEq

/-- Python `int(v)` where the exceptions are not caught. -/
def py_int_err : PyV → Except PyErr Int
  | .vint n => .ok n
  | .vstr s =>
    match py_int_of_string s with
    | some n => .ok n
    | none => .error .valueError
  | .vnone => .error .typeError

instance : Inhabited Candidate :=
  ⟨{ id := 0, tag := "", text := "", selector := sel_text "", attrs := [] }⟩

/-- Python list indexing `l[i]` with negative-index wrap-around and
`IndexError`. -/
def pyIndex (l : List Candidate) (i : Int) : Except PyErr Candidate :=
  if 0 ≤ i ∧ i < (l.length : Int) then .ok (l.getD i.toNat default)
  else if -(l.length : Int) ≤ i ∧ i < 0 then
    .ok (l.getD (l.length - (-i).toNat) default)
  else .error .indexError

/-! ### URL handling (`agent/actions.py`)

`urllib.parse` primitives modelled at the character level.  Percent
escapes are modelled byte-per-character (ASCII), which is all the query
parameters of this service use. -/

/-- Split a character list at the first occurrence of `sep`. -/
def splitOnFirst (sep : Char) : List Char → Option (List Char × List Char)
  | [] => none
  | c :: rest =>
    if c = sep then some ([], rest)
    else
      match splitOnFirst sep rest with
      | some (a, b) => some (c :: a, b)
      | none => none

/-- Split a character list at every occurrence of `sep` (`str.split(sep)`). -/
def splitOnAux (sep : Char) : List Char → List Char → List (List Char)
  | [], acc => [acc.reverse]
  | c :: rest, acc =>
    if c = sep then acc.reverse :: splitOnAux sep rest []
    else splitOnAux sep rest (c :: acc)

/-- The pieces returned by `urllib.parse.urlsplit`. -/
structure UrlParts where
  scheme : String
  netloc : String
  path : String
  query : String
  fragment : String
deriving Repr, DecidableEq

/-- A character allowed in a URL scheme. -/
def isSchemeChar (c : Char) : Bool :=
  c.isAlpha || c.isDigit || c = '+' || c = '-' || c = '.'

/-- The scheme-splitting step of `urlsplit`. -/
def urlsplitScheme (url : List Char) : String × List Char :=
  match splitOnFirst ':' url with
  | some (pre, rest) =>
    match pre with
    | [] => ("", url)
    | c0 :: _ =>
      if c0.isAlpha ∧ pre.all isSchemeChar then (pyLower (String.mk pre), rest)
      else ("", url)
  | none => ("", url)

/-- Take netloc characters up to the first of `/`, `?`, `#`. -/
def takeNetloc : List Char → List Char × List Char
  | [] => ([], [])
  | c :: rest =>
    if c = '/' ∨ c = '?' ∨ c = '#' then ([], c :: rest)
    else
      let p := takeNetloc rest
      (c :: p.1, p.2)

/-- The `//netloc` step of `urlsplit`. -/
def splitNetloc (l : List Char) : List Char × List Char :=
  match l with
  | '/' :: '/' :: rest => takeNetloc rest
  | r1 => ([], r1)

/-- The fragment-splitting step of `urlsplit`. -/
def splitFragment (l : List Char) : List Char × List Char :=
  match splitOnFirst '#' l with
  | some (a, b) => (a, b)
  | none => (l, [])

/-- The query-splitting step of `urlsplit`. -/
def splitQuery (l : List Char) : List Char × List Char :=
  match splitOnFirst '?' l with
  | some (a, b) => (a, b)
  | none => (l, [])

/-- The splitting pipeline of `urlsplit`: scheme, then `//netloc`, then
fragment, then query. -/
def urlsplitParts (url : String) : UrlParts :=
  let sp := urlsplitScheme url.data
  let np := splitNetloc sp.2
  let bf := splitFragment np.2
  let pq := splitQuery bf.1
  ⟨sp.1, String.mk np.1, String.mk pq.1, String.mk pq.2, String.mk bf.2⟩

/-- CPython removes tab, CR and LF from the url before parsing
(`_UNSAFE_URL_BYTES_TO_REMOVE`). -/
def removeUnsafe (s : String) : String :=
  String.mk (s.data.filter (fun c => !(c == '\t' || c == '\r' || c == '\n')))

/-- Python `ch in s` for a single character. -/
def hasChar (c : Char) (s : String) : Bool := s.data.any (fun x => x == c)

/-- `urllib.parse.urlsplit`: unsafe-byte removal, then the splitting
pipeline; raises `ValueError("Invalid IPv6 URL")` when the netloc
carries mismatched square brackets.  (The bracketed-host validation of
newer interpreters lies outside the ASCII fragment modelled here.) -/
def urlsplit (url : String) : Except PyErr UrlParts :=
  let parts := urlsplitParts (removeUnsafe url)
  if (hasChar '[' parts.netloc && !(hasChar ']' parts.netloc))
      || (hasChar ']' parts.netloc && !(hasChar '[' parts.netloc)) then
    .error .valueError
  else .ok parts

/-- No square bracket occurs in the character. -/
def noBracket (c : Char) : Bool := !(c == '[' || c == ']')

/-- No square bracket occurs in the string: a sufficient input condition
for every `urlsplit` on the navigate path to succeed. -/
def bracketFree (s : String) : Bool := s.data.all noBracket

/-- `urllib.parse.urlunsplit`. -/
def urlunsplit (p : UrlParts) : String :=
  let url0 := p.path
  let url1 :=
    if p.netloc ≠ "" ∨ (url0 ≠ "" ∧ pyStartsWith url0 "//") then
      "//" ++ p.netloc ++
        (if url0 ≠ "" ∧ ¬ pyStartsWith url0 "/" then "/" ++ url0 else url0)
    else url0
  let url2 := if p.scheme ≠ "" then p.scheme ++ ":" ++ url1 else url1
  let url3 := if p.query ≠ "" then url2 ++ "?" ++ p.query else url2
  if p.fragment ≠ "" then url3 ++ "#" ++ p.fragment else url3

/-- `_same_path_query(url_a, url_b)` (its `urlsplit` calls can raise). -/
def same_path_query (url_a url_b : String) : Except PyErr Bool :=
  if url_a.isEmpty || url_b.isEmpty then .ok false
  else
    match urlsplit url_a with
    | .error e => .error e
    | .ok a =>
      match urlsplit url_b with
      | .error e => .error e
      | .ok b => .ok (a.path == b.path && a.query == b.query)

/-- `normalize_url(raw_url)`: rewrite to `http://localhost` preserving
path, query and fragment (its `urlsplit` call can raise). -/
def normalize_url (raw_url : String) : Except PyErr String :=
  if raw_url.isEmpty then .ok ""
  else if ¬ (pyStartsWith raw_url "http://" || pyStartsWith raw_url "https://"
      || pyStartsWith raw_url "//") then
    if pyStartsWith raw_url "/" then .ok ("http://localhost" ++ raw_url)
    else .ok ("http://localhost/" ++ raw_url)
  else
    match urlsplit raw_url with
    | .error e => .error e
    | .ok parts =>
      .ok (urlunsplit ⟨"http", "localhost", parts.path, parts.query, parts.fragment⟩)

/-- Hex value of a character, if it is a hex digit. -/
def hexVal (c : Char) : Option Nat :=
  if c.isDigit then some (c.toNat - 48)
  else if 97 ≤ c.toNat ∧ c.toNat ≤ 102 then some (c.toNat - 87)
  else if 65 ≤ c.toNat ∧ c.toNat ≤ 70 then some (c.toNat - 55)
  else none

/-- Percent-decoding (`urllib.parse.unquote`, byte-per-character). -/
def unquoteAux : List Char → List Char
  | [] => []
  | '%' :: a :: b :: rest =>
    match hexVal a, hexVal b with
    | some ha, some hb => Char.ofNat (ha * 16 + hb) :: unquoteAux rest
    | _, _ => '%' :: unquoteAux (a :: b :: rest)
  | c :: rest => c :: unquoteAux rest

/-- `unquote(s.replace('+', ' '))` as in `parse_qsl`. -/
def unquote_plus (s : String) : String :=
  String.mk (unquoteAux (s.data.map (fun c => if c = '+' then ' ' else c)))

/-- `urllib.parse.parse_qsl(qs, keep_blank_values=True)`. -/
def parse_qsl (qs : String) : List (String × String) :=
  (splitOnAux '&' qs.data []).filterMap (fun nv =>
    if nv.isEmpty then none
    else
      match splitOnFirst '=' nv with
      | some (n, v) => some (unquote_plus (String.mk n), unquote_plus (String.mk v))
      | none => some (unquote_plus (String.mk nv), ""))

/-- `urllib.parse.parse_qs(qs, keep_blank_values=True)`: group values by
key, keeping first-seen key order. -/
def parse_qs (qs : String) : List (String × List String) :=
  (parse_qsl qs).foldl
    (fun acc p =>
      if (acc.lookup p.1).isSome then
        acc.map (fun q => if q.1 = p.1 then (q.1, q.2 ++ [p.2]) else q)
      else acc ++ [(p.1, [p.2])])
    []

/-- A character `quote_plus` leaves unescaped. -/
def isUrlSafe (c : Char) : Bool :=
  c.isAlpha || c.isDigit || c = '_' || c = '.' || c = '-' || c = '~'

/-- An uppercase hex digit. -/
def hexDigit (n : Nat) : Char :=
  if n < 10 then Char.ofNat (48 + n) else Char.ofNat (55 + n)

/-- `urllib.parse.quote_plus` (byte-per-character). -/
def quote_plus (s : String) : String :=
  String.mk ((s.data.map (fun c =>
    if c = ' ' then ['+']
    else if isUrlSafe c then [c]
    else ['%', hexDigit (c.toNat / 16 % 16), hexDigit (c.toNat % 16)])).flatten)

/-- `urllib.parse.urlencode(params, doseq=True)` over a `parse_qs` dict. -/
def urlencode (params : List (String × List String)) : String :=
  pyJoin "&" ((params.map (fun p =>
    p.2.map (fun v => quote_plus p.1 ++ "=" ++ quote_plus v))).flatten)

/-- `preserve_seed(target_url, current_url)`: copy any of `seed`,
`web_agent_id`, `validator_id` present on the current URL but absent on
the target into the target (its `urlsplit` calls can raise). -/
def preserve_seed (target_url current_url : String) : Except PyErr String :=
  if target_url.isEmpty || current_url.isEmpty then .ok target_url
  else
    match urlsplit target_url with
    | .error e => .error e
    | .ok tp =>
      match urlsplit current_url with
      | .error e => .error e
      | .ok cp =>
        let cparams := parse_qs cp.query
        let r := (["seed", "web_agent_id", "validator_id"]).foldl
          (fun (st : List (String × List String) × Bool) key =>
            if (cparams.lookup key).isSome ∧ (st.1.lookup key).isNone then
              (st.1 ++ [(key, (cparams.lookup key).getD [])], true)
            else st)
          (parse_qs tp.query, false)
        if ¬ r.2 then .ok target_url
        else .ok (urlunsplit ⟨tp.scheme, tp.netloc, tp.path, urlencode r.1, tp.fragment⟩)

/-! ### Typed actions (`models/actions.py`) -/

inductive ActionU where
  | click (selector : Selector)
  | typeText (selector : Selector) (text : String)
  | selectOption (selector : Selector) (text : String) (timeout_ms : Int)
  | navigate (url : String) (go_back go_forward : Bool)
  | scroll (down up : Bool)
deriving Repr, DecidableEq

/-- `_selector_from_dict(d)`: rebuild the typed selector from the dumped
dict (the fallback branch also yields a `tagContainsSelector`). -/
def selector_from_dict (d : Selector) : Selector :=
  if selType d = "attributeValueSelector" then
    .attrVal (selAttributeD d) (selValueD d) (selCaseD d)
  else if selType d = "tagContainsSelector" then .tagContains (selValueD d) (selCaseD d)
  else if selType d = "xpathSelector" then .xpath none (selValueD d) (selCaseD d)
  else .tagContains (selValueD d) false

/-- Python `re.match(r"\\d{4}-\\d{2}-\\d{2}", s)` truthiness: the string
starts with a `YYYY-MM-DD` shape. -/
def matchesDatePrefix (s : String) : Bool :=
  match s.data with
  | a :: b :: c :: d :: '-' :: e :: f :: '-' :: g :: h :: _ =>
    a.isDigit && b.isDigit && c.isDigit && d.isDigit &&
    e.isDigit && f.isDigit && g.isDigit && h.isDigit
  | _ => false

/-! ### Decision validation and action building (`agent/actions.py`) -/

/-- `validate_and_fix(decision, candidates)`: pass-through for
candidate-free actions, id validation and text inference for
click/type/select, `none` for unrecoverable cases. -/
def validate_and_fix (decision : Decision) (candidates : List Candidate) :
    Option Decision :=
  let action := dget decision "action" (.vstr "")
  if pyEq action "done" || pyEq action "scroll_down" || pyEq action "scroll_up"
      || pyEq action "navigate" then
    some decision
  else if pyEq action "click" || pyEq action "type" || pyEq action "select" then
    match py_int (dget decision "candidate_id" (.vint (-1))) with
    | none => none
    | some cid =>
      if cid < 0 ∨ (candidates.length : Int) ≤ cid then none
      else if pyEq action "click" then some decision
      else
        let candidate := candidates.getD cid.toNat default
        if pyEq action "type" then
          if ¬ pyTruthy (dget decision "text" (.vstr "")) then
            if candidate.input_type = "password" then
              some (dset decision "text" (.vstr "<password>"))
            else if pyInStr "user" (pyLower candidate.label)
                || pyInStr "email" (pyLower candidate.label) then
              some (dset decision "text" (.vstr "<username>"))
            else if candidate.input_type = "date" ∧ candidate.placeholder ≠ "" ∧
                matchesDatePrefix (pyStrip candidate.placeholder) then
              some (dset decision "text" (.vstr (pyStrip candidate.placeholder)))
            else if candidate.placeholder ≠ "" ∧ pyInStr "@" candidate.placeholder then
              some (dset decision "text" (.vstr "<username>"))
            else none
          else some decision
        else
          if ¬ pyTruthy (dget decision "text" (.vstr "")) then
            match candidate.options with
            | o :: _ => some (dset decision "text" (.vstr o))
            | [] => none
          else some decision
  else none

/-- The navigate branch of `build_action` given the raw `url` value as a
string (a falsy value has already been collapsed to `""`, as
`normalize_url` does); the `urlsplit` errors of the three URL steps
propagate. -/
def buildNavigate (u : String) (current_url : String) : Except PyErr (Option ActionU) :=
  match normalize_url u with
  | .error e => .error e
  | .ok normalized =>
    match preserve_seed normalized current_url with
    | .error e => .error e
    | .ok final_url =>
      match same_path_query final_url current_url with
      | .error e => .error e
      | .ok same =>
        if same then .ok (some (.scroll true false))
        else .ok (some (.navigate final_url false false))

/-- `build_action(decision, candidates, current_url, step_index)`:
validate, then map to a typed action; `done` maps to no action; failures
fall back to a submit-button click, a first-candidate click, or a
scroll-down.  Exceptions (never reachable on Decision-shaped dicts) are
modelled in `Except`. -/
def build_action (decision : Decision) (candidates : List Candidate)
    (current_url : String) (step_index : Int) : Except PyErr (Option ActionU) :=
  match validate_and_fix decision candidates with
  | none =>
    if step_index < 5 ∧ candidates ≠ [] then
      match candidates.find? (fun c =>
        let label := pyLower (if c.label ≠ "" then c.label
                              else if c.text ≠ "" then c.text else "")
        ["submit", "log in", "sign in", "login", "signin"].any
          (fun kw => pyInStr kw label)) with
      | some c => .ok (some (.click (selector_from_dict c.selector)))
      | none => .ok (some (.click (selector_from_dict (candidates.headD default).selector)))
    else .ok (some (.scroll true false))
  | some fixed =>
    let action := dget fixed "action" (.vstr "")
    if pyEq action "done" then .ok none
    else if pyEq action "scroll_down" then .ok (some (.scroll true false))
    else if pyEq action "scroll_up" then .ok (some (.scroll false true))
    else if pyEq action "navigate" then
      match dget fixed "url" (.vstr "") with
      | .vstr s => buildNavigate s current_url
      | .vnone => buildNavigate "" current_url
      | .vint n => if n = 0 then buildNavigate "" current_url else .error .attributeError
    else if pyEq action "click" || pyEq action "type" || pyEq action "select" then
      match fixed.lookup "candidate_id" with
      | none => .error (.keyError "candidate_id")
      | some v =>
        match py_int_err v with
        | .error e => .error e
        | .ok cid =>
          match pyIndex candidates cid with
          | .error e => .error e
          | .ok cand =>
            let selector := selector_from_dict cand.selector
            if pyEq action "click" then .ok (some (.click selector))
            else if pyEq action "type" then
              match dget fixed "text" (.vstr "") with
              | .vstr t => .ok (some (.typeText selector t))
              | _ => .error .validationError
            else
              match dget fixed "text" (.vstr "") with
              | .vstr t => .ok (some (.selectOption selector t 4000))
              | _ => .error .validationError
    else .ok (some (.scroll true false))

/-! ### Per-task loop detection (`agent/state.py`) -/

/-- The per-task record of `_TASK_STATE`. -/
structure TaskState where
  last_sig : Option String
  last_url : Option String
  repeat_count : Nat
deriving Repr, DecidableEq

/-- Python f-string rendering of a possibly-`None` string. -/
def pyStrOpt : Option String → String
  | some s => s
  | none => "None"

/-- `check_loop(task_id, url, action_sig)` as a transition on the state
of one task (`none` models a task id absent from `_TASK_STATE`). -/
def check_loop (st? : Option TaskState) (url action_sig : String) :
    Option String × TaskState :=
  let st := st?.getD ⟨none, none, 0⟩
  let combo := action_sig ++ "@" ++ url
  let last_combo : Option String :=
    match st.last_sig with
    | some _ => some (pyStrOpt st.last_sig ++ "@" ++ pyStrOpt st.last_url)
    | none => none
  let st' :=
    if some combo == last_combo then { st with repeat_count := st.repeat_count + 1 }
    else { last_sig := some action_sig, last_url := some url, repeat_count := 1 }
  if st'.repeat_count ≥ 2 then
    (some "You are repeating the same action. Try something different.", st')
  else (none, st')

/-- A decision dict as the Decision data model types it: the `text` and
`url` fields, when present, hold a string or `None`. -/
def decisionWellTyped (d : Decision) : Prop :=
  (∀ v, d.lookup "text" = some v → v = .vnone ∨ ∃ s, v = .vstr s) ∧
  (∀ v, d.lookup "url" = some v → v = .vnone ∨ ∃ s, v = .vstr s)

/-- A default candidate used to select concrete witnesses. -/
def cEx0 : Candidate :=
  (extract_candidates soupEx).getD [] |>.headD
    { id := 0, tag := "", text := "", selector := sel_text "", attrs := [] }

end Autoppia

namespace Autoppia

/-- C4: `build_selector` is total by construction; an element with a
non-empty `id` always gets the id-based selector (in particular when a
non-empty `data-testid` is also present), and an anchor carrying only a
non-`javascript:` `href` (no id, no data-testid) gets the href-based
selector. -/
theorem build_selector_priority_id_and_href (tag : String) (attrs : Attrs)
    (text : String) :
    (attrGetD attrs "id" "" ≠ "" →
      build_selector tag attrs text = sel_attr "id" (attrGetD attrs "id" "")) ∧
    (attrGetD attrs "id" "" = "" → attrGetD attrs "data-testid" "" = "" →
      tag = "a" → attrGetD attrs "href" "" ≠ "" →
      ¬ pyStartsWith (pyLower (attrGetD attrs "href" "")) "javascript:" →
      build_selector tag attrs text = sel_attr "href" (attrGetD attrs "href" "")) := by
  constructor
  · intro hid
    simp only [build_selector, if_pos hid]
  · intro hid htid htag hhref hjs
    unfold build_selector
    rw [if_neg (by simp [hid]), if_neg (by simp [htid]),
      if_pos (And.intro htag (And.intro hhref hjs))]

/-- Witness for `build_selector_priority_id_and_href` at a concrete
element that has both `id` and `data-testid`, and a concrete anchor
with only an `href`. -/
theorem build_selector_priority_id_and_href_witness :
    build_selector "button" [("id", "login-btn"), ("data-testid", "lg")] "Go"
        = sel_attr "id" "login-btn" ∧
    build_selector "a" [("href", "/home")] ""
        = sel_attr "href" "/home" := by
  refine ⟨(build_selector_priority_id_and_href "button"
      [("id", "login-btn"), ("data-testid", "lg")] "Go").1 (by decide), ?_⟩
  have h := (build_selector_priority_id_and_href "a" [("href", "/home")] "").2
  exact h (by decide) (by decide) rfl (by decide) (by decide)

/-- C10: for every tag, attribute map and text, `build_selector` returns
an `attributeValueSelector` or a `tagContainsSelector`, never an
`xpathSelector`; and a `tagContainsSelector` arises only for a `button`
or `a` tag with non-empty text when every higher-priority attribute rule
failed to apply. -/
theorem build_selector_never_xpath (tag : String) (attrs : Attrs) (text : String) :
    (∀ a v c, build_selector tag attrs text ≠ Selector.xpath a v c) ∧
    (∀ v c, build_selector tag attrs text = Selector.tagContains v c →
      (tag = "button" ∨ tag = "a") ∧ text ≠ "" ∧ v = text ∧ c = false ∧
      attrGetD attrs "id" "" = "" ∧
      attrGetD attrs "data-testid" "" = "" ∧
      ¬ (tag = "a" ∧ attrGetD attrs "href" "" ≠ "" ∧
        ¬ pyStartsWith (pyLower (attrGetD attrs "href" "")) "javascript:") ∧
      attrGetD attrs "aria-label" "" = "" ∧
      attrGetD attrs "name" "" = "" ∧
      attrGetD attrs "placeholder" "" = "" ∧
      attrGetD attrs "title" "" = "") := by
  constructor
  · intro a v c
    unfold build_selector
    split_ifs <;> simp [sel_attr, sel_text]
  · intro v c h
    unfold build_selector at h
    split_ifs at h with h1 h2 h3 h4 h5 h6 h7 h8 <;>
      first
        | exact absurd h (by simp [sel_attr])
        | (simp only [sel_text, Selector.tagContains.injEq] at h
           exact ⟨h8.2, h8.1, h.1.symm, h.2.symm, not_not.mp h1, not_not.mp h2, h3,
             not_not.mp h4, not_not.mp h5, not_not.mp h6, not_not.mp h7⟩)

/-- An invariant preserved by every step of an `Option`-valued fold is
preserved by the whole fold. -/
theorem foldlM_option_inv {α β : Type} {P : β → Prop} {f : β → α → Option β}
    (hstep : ∀ b a b', f b a = some b' → P b → P b') :
    ∀ (l : List α) (b b' : β), List.foldlM f b l = some b' → P b → P b' := by
  intro l
  induction l with
  | nil =>
    intro b b' h hb
    simp only [List.foldlM_nil, pure, Option.some.injEq] at h
    exact h ▸ hb
  | cons a t ih =>
    intro b b' h hb
    rw [List.foldlM_cons] at h
    cases hfa : f b a with
    | none => rw [hfa] at h; simp [Bind.bind, Option.bind] at h
    | some b1 =>
      rw [hfa] at h
      simp only [Bind.bind, Option.bind] at h
      exact ih b1 b' h (hstep b a b1 hfa hb)

/-- An invariant preserved by `extractStep` and holding initially holds
for some final state whose candidate list `extract_candidates` returns. -/
theorem extract_candidates_inv {P : ExtState → Prop} (soup : DomNode)
    (hstep : ∀ st e st', extractStep soup st e = some st' → P st → P st')
    (hinit : P ([], []))
    (cs : List Candidate) (h : extract_candidates soup = some cs) :
    ∃ st : ExtState, st.1 = cs ∧ P st := by
  unfold extract_candidates at h
  simp only [bind, Option.bind] at h
  cases hx : INTERACTIVE_SELECTORS.foldlM
      (fun st css => ((allElems soup).filter (matchesCss css)).foldlM (extractStep soup) st)
      (([], []) : ExtState) with
  | none => rw [hx] at h; cases h
  | some st =>
    rw [hx] at h
    simp only [pure, Option.some.injEq] at h
    refine ⟨st, h ▸ rfl, ?_⟩
    refine foldlM_option_inv ?_ INTERACTIVE_SELECTORS ([], []) st hx hinit
    intro b css b' hcss hb
    exact foldlM_option_inv (fun st1 e st1' h1 => hstep st1 e st1' h1)
      ((allElems soup).filter (matchesCss css)) b b' hcss hb

/-- One extraction step keeps the id list dense. -/
theorem extractStep_ids (soup : DomNode) (st : ExtState) (e : ElemInfo) (st' : ExtState)
    (h : extractStep soup st e = some st')
    (hp : st.1.map Candidate.id = List.range st.1.length) :
    st'.1.map Candidate.id = List.range st'.1.length := by
  unfold extractStep at h
  split at h
  · cases h; exact hp
  · split at h
    · cases h; exact hp
    · split at h
      · cases h
      · rename_i label _
        by_cases h3 : candSig (build_selector e.tag e.attrs label) ∈ st.2
        · rw [if_pos h3] at h; cases h; exact hp
        · rw [if_neg h3] at h
          cases h
          simp only [List.map_append, List.length_append, List.map_cons, List.map_nil,
            List.length_cons, List.length_nil, List.range_succ, hp]

/-- One extraction step preserves the dedup invariant. -/
theorem extractStep_dedup (soup : DomNode) (st : ExtState) (e : ElemInfo) (st' : ExtState)
    (h : extractStep soup st e = some st') (hp : dedupInv st) : dedupInv st' := by
  unfold extractStep at h
  split at h
  · cases h; exact hp
  · split at h
    · cases h; exact hp
    · split at h
      · cases h
      · rename_i label _
        by_cases h3 : candSig (build_selector e.tag e.attrs label) ∈ st.2
        · rw [if_pos h3] at h; cases h; exact hp
        · rw [if_neg h3] at h
          cases h
          obtain ⟨hnd, hmem⟩ := hp
          constructor
          · simp only [List.map_append, List.map_cons, List.map_nil, List.nodup_append,
              List.nodup_cons, List.nodup_nil, List.disjoint_singleton]
            refine ⟨hnd, by simp, ?_⟩
            simp only [List.mem_map]
            rintro ⟨c, hc, hcs⟩
            exact h3 (hcs ▸ hmem c hc)
          · intro c hc
            rcases List.mem_append.mp hc with hold | hnew
            · exact List.mem_cons_of_mem _ (hmem c hold)
            · simp only [List.mem_singleton] at hnew
              subst hnew
              exact List.mem_cons_self _ _

/-- Witness for `build_selector_never_xpath`: a bare `button` with text
resolves to the text-based selector, and the theorem pins down the
conditions that allowed it. -/
theorem build_selector_never_xpath_witness :
    (build_selector "button" [] "Go" ≠ Selector.xpath none "x" false) ∧
    ((Selector.tagContains "Go" false = Selector.tagContains "Go" false) →
      ("button" : String) = "button" ∨ ("button" : String) = "a") := by
  refine ⟨(build_selector_never_xpath "button" [] "Go").1 none "x" false, ?_⟩
  intro _
  have h := (build_selector_never_xpath "button" [] "Go").2 "Go" false (by decide)
  exact h.1


/-- C3: for every pruned tree on which extraction succeeds with N
accepted (non-filtered, non-duplicate) interactive elements, the
returned candidates carry ids exactly 0..N-1 in order; the iteration
order is the fixed query list `INTERACTIVE_SELECTORS` with document
order within each query, as `extract_candidates` exhibits. -/
theorem extract_candidates_ids_dense (soup : DomNode) (cs : List Candidate)
    (h : extract_candidates soup = some cs) :
    cs.map Candidate.id = List.range cs.length := by
  obtain ⟨st, hst, hp⟩ := extract_candidates_inv soup
    (extractStep_ids soup) (by simp) cs h
  exact hst ▸ hp

/-- Witness for `extract_candidates_ids_dense` on a concrete page with
three interactive elements. -/
theorem extract_candidates_ids_dense_witness :
    extract_candidates soupEx = some csEx ∧
    csEx.map Candidate.id = List.range csEx.length :=
  ⟨by rfl, extract_candidates_ids_dense soupEx csEx (by rfl)⟩

/-- C5: extraction never returns two candidates with the same
`(selector.type, attribute, value)` signature: the signature list of the
result is duplicate-free (the later-visited element is skipped by the
seen-signature check). -/
theorem extract_candidates_dedup (soup : DomNode) (cs : List Candidate)
    (h : extract_candidates soup = some cs) :
    (cs.map (fun c => candSig c.selector)).Nodup := by
  obtain ⟨st, hst, hp⟩ := extract_candidates_inv soup
    (extractStep_dedup soup) (by simp [dedupInv]) cs h
  exact hst ▸ hp.1

/-- Witness for `extract_candidates_dedup` on the same concrete page. -/
theorem extract_candidates_dedup_witness :
    (csEx.map (fun c => candSig c.selector)).Nodup :=
  extract_candidates_dedup soupEx csEx (by rfl)

/-- A string that contains a character another string lacks differs
from it. -/
theorem ne_of_mem_char {a b : String} (c : Char) (ha : c ∈ a.data) (hb : c ∉ b.data) :
    b ≠ a := fun h => hb (h ▸ ha)

/-- A candidate whose `disabled` flag is off never gets the `disabled`
marker in its metadata list: every other entry contains `=`. -/
theorem disabled_marker_absent (c : Candidate) (hd : c.disabled = false) :
    "disabled" ∉ candidateMeta c := by
  intro hmem
  unfold candidateMeta at hmem
  rw [hd] at hmem
  simp only [Bool.false_eq_true, if_false, List.append_nil, List.mem_append] at hmem
  rcases hmem with ((h1 | h2) | h3) | h4
  · split at h1
    · simp only [List.mem_singleton] at h1
      refine ne_of_mem_char '=' ?_ (by decide) h1
      rw [String.data_append, String.data_append]
      exact List.mem_append_left _ (List.mem_append_right _ (by decide))
    · cases h1
  · rcases hpf : c.parent_form with _ | pf <;> rw [hpf] at h2
    · cases h2
    · dsimp only at h2
      split at h2
      · simp only [List.mem_singleton] at h2
        refine ne_of_mem_char '=' ?_ (by decide) h2
        rw [String.data_append]
        exact List.mem_append_left _ (by decide)
      · cases h2
  · split at h3
    · simp only [List.mem_singleton] at h3
      refine ne_of_mem_char '=' ?_ (by decide) h3
      rw [String.data_append]
      exact List.mem_append_left _ (by decide)
    · cases h3
  · split at h4
    · simp only [List.mem_singleton] at h4
      refine ne_of_mem_char '=' ?_ (by decide) h4
      rw [String.data_append, String.data_append]
      exact List.mem_append_left _ (List.mem_append_left _ (by decide))
    · cases h4

/-- One extraction step keeps all candidates non-disabled and
non-selected (the constructor never sets either flag). -/
theorem extractStep_flags (soup : DomNode) (st : ExtState) (e : ElemInfo) (st' : ExtState)
    (h : extractStep soup st e = some st')
    (hp : ∀ c ∈ st.1, c.disabled = false ∧ c.selected = false) :
    ∀ c ∈ st'.1, c.disabled = false ∧ c.selected = false := by
  unfold extractStep at h
  split at h
  · cases h; exact hp
  · split at h
    · cases h; exact hp
    · split at h
      · cases h
      · rename_i label _
        by_cases h3 : candSig (build_selector e.tag e.attrs label) ∈ st.2
        · rw [if_pos h3] at h; cases h; exact hp
        · rw [if_neg h3] at h
          cases h
          intro c hc
          rcases List.mem_append.mp hc with hold | hnew
          · exact hp c hold
          · simp only [List.mem_singleton] at hnew
            subst hnew
            exact ⟨rfl, rfl⟩

/-- C9: every candidate extraction returns has `disabled = false` and
`selected = false` (disabled elements are filtered out and neither field
is ever set), so the page-IR element line never carries the `disabled`
marker for an extracted candidate. -/
theorem extract_candidates_never_disabled (soup : DomNode) (cs : List Candidate)
    (h : extract_candidates soup = some cs) :
    ∀ c ∈ cs, c.disabled = false ∧ c.selected = false ∧
      "disabled" ∉ candidateMeta c := by
  obtain ⟨st, hst, hp⟩ := extract_candidates_inv soup (extractStep_flags soup)
    (by simp) cs h
  intro c hc
  obtain ⟨hd, hs⟩ := hp c (hst ▸ hc)
  exact ⟨hd, hs, disabled_marker_absent c hd⟩

/-- Witness for `extract_candidates_never_disabled` at the first
candidate of the concrete page. -/
theorem extract_candidates_never_disabled_witness :
    cEx0.disabled = false ∧ cEx0.selected = false ∧
      "disabled" ∉ candidateMeta cEx0 :=
  extract_candidates_never_disabled soupEx csEx (by rfl) cEx0 (by decide)

/-! ### String-layer lemmas for the Page IR length analysis -/

theorem intLen_append (a b : List String) : intLen (a ++ b) = intLen a + intLen b := by
  simp [intLen]

theorem intLen_cons (x : String) (a : List String) :
    intLen (x :: a) = (x.length : Int) + 1 + intLen a := by
  simp [intLen]

theorem intLen_nonneg (a : List String) : 0 ≤ intLen a := by
  induction a with
  | nil => simp [intLen]
  | cons x t ih =>
    rw [intLen_cons]
    have : (0 : Int) ≤ (x.length : Int) + 1 := by positivity
    omega

theorem intLen_singleton (x : String) : intLen [x] = (x.length : Int) + 1 := by
  simp [intLen]

/-- Joining with newlines costs one character per line minus the last. -/
theorem pyJoin_nl_length :
    ∀ ls : List String, ls ≠ [] → ((pyJoin "\n" ls).length : Int) + 1 = intLen ls := by
  intro ls
  induction ls with
  | nil => intro h; exact absurd rfl h
  | cons x t ih =>
    intro _
    cases t with
    | nil => simp [pyJoin, intLen]
    | cons y r =>
      show ((x ++ "\n" ++ pyJoin "\n" (y :: r)).length : Int) + 1 = _
      have hy := ih (by simp)
      rw [intLen_cons]
      rw [String.length_append, String.length_append]
      have h1 : ("\n" : String).length = 1 := rfl
      rw [h1]
      push_cast
      omega

theorem isPrefixOf_append_of_le (p : List Char) :
    ∀ (a b : List Char), p.length ≤ a.length →
      p.isPrefixOf (a ++ b) = p.isPrefixOf a := by
  induction p with
  | nil => intro a b _; simp [List.isPrefixOf]
  | cons c p ih =>
    intro a b h
    cases a with
    | nil => simp at h
    | cons d a =>
      show (c == d && p.isPrefixOf (a ++ b)) = (c == d && p.isPrefixOf a)
      rw [ih a b (by simpa using h)]

/-- A prefix test against a string with a long-enough literal head
ignores the appended tail. -/
theorem pyStartsWith_append_eq (a b p : String) (h : p.length ≤ a.length) :
    pyStartsWith (a ++ b) p = pyStartsWith a p := by
  unfold pyStartsWith
  rw [String.data_append]
  exact isPrefixOf_append_of_le p.data a.data b.data h

/-- A prefix test fails when the first characters differ. -/
theorem pyStartsWith_head_ne (s p : String) (c d : Char) (cs ds : List Char)
    (hs : s.data = c :: cs) (hp : p.data = d :: ds) (hne : d ≠ c) :
    pyStartsWith s p = false := by
  unfold pyStartsWith
  rw [hs, hp]
  show (d == c && List.isPrefixOf ds cs) = false
  rw [beq_eq_false_iff_ne.mpr hne, Bool.false_and]

theorem isPrefixOf_append_left (p : List Char) :
    ∀ (a b : List Char), p.isPrefixOf a = true → p.isPrefixOf (a ++ b) = true := by
  induction p with
  | nil => intro a b _; simp [List.isPrefixOf]
  | cons c p ih =>
    intro a b h
    cases a with
    | nil => simp [List.isPrefixOf] at h
    | cons d a =>
      simp only [List.isPrefixOf, Bool.and_eq_true] at h
      show (c == d && p.isPrefixOf (a ++ b)) = true
      rw [h.1, ih a b h.2, Bool.and_self]

theorem listContainsSub_append_left (n : List Char) :
    ∀ (a b : List Char), listContainsSub n a = true → listContainsSub n (a ++ b) = true := by
  intro a
  induction a with
  | nil =>
    intro b h
    simp only [listContainsSub, List.isEmpty_iff] at h
    subst h
    cases b with
    | nil => rfl
    | cons c r => simp [listContainsSub, List.isPrefixOf]
  | cons c r ih =>
    intro b h
    simp only [listContainsSub, Bool.or_eq_true] at h ⊢
    rcases h with h | h
    · exact Or.inl (isPrefixOf_append_left n (c :: r) b h)
    · exact Or.inr (ih b h)

/-- Containment in a left part survives appending. -/
theorem pyInStr_append_left (s a b : String) (h : pyInStr s a = true) :
    pyInStr s (a ++ b) = true := by
  unfold pyInStr at h ⊢
  rw [String.data_append]
  exact listContainsSub_append_left s.data a.data b.data h

/-- A slice that covers the literal head splits over the append. -/
theorem pyTake_append_of_le (a b : String) (n : Nat) (h : a.length ≤ n) :
    pyTake (a ++ b) n = a ++ pyTake b (n - a.length) := by
  unfold pyTake
  apply String.ext
  simp only [String.data_append, List.take_append_eq_append_take]
  rw [List.take_of_length_le h]
  rfl

/-- Accounting and bound for the element-line loop of `_truncate_ir`:
the emitted lines cost exactly the consumed budget, and with fewer than
`10^50` element lines the remaining budget never drops below
`min (budget - 81) 0` (the notice line is at most 81 characters wide,
newline included, once the element count stays under `10^50`). -/
theorem addElementLines_spec (total : Nat) (Htot : total < 10 ^ 50) :
    ∀ (els : List String) (budget : Int) (included : Nat),
      intLen (addElementLines total els budget included).1
          = budget - (addElementLines total els budget included).2 ∧
      min (budget - 81) 0 ≤ (addElementLines total els budget included).2 := by
  intro els
  induction els with
  | nil =>
    intro budget included
    constructor
    · simp [addElementLines, intLen]
    · simp only [addElementLines]
      omega
  | cons l rest ih =>
    intro budget included
    by_cases hb : budget - ((l.length : Int) + 1) > 80
    · have heq : addElementLines total (l :: rest) budget included =
          (l :: (addElementLines total rest (budget - ((l.length : Int) + 1)) (included + 1)).1,
           (addElementLines total rest (budget - ((l.length : Int) + 1)) (included + 1)).2) := by
        simp only [addElementLines, if_pos hb]
      obtain ⟨ha, hbnd⟩ := ih (budget - ((l.length : Int) + 1)) (included + 1)
      rw [heq]
      constructor
      · simp only [intLen_cons, ha]
        ring
      · simp only
        omega
    · have hrep : (Nat.repr (total - included)).length ≤ 50 :=
        Nat.repr_length (total - included) 50 (by norm_num)
          (lt_of_le_of_lt (Nat.sub_le total included) Htot)
      have hlen : (("... (" ++ Nat.repr (total - included) ++
          " more elements truncated)").length : Int) ≤ 80 := by
        rw [String.length_append, String.length_append]
        have h5 : ("... (" : String).length = 5 := rfl
        have h25 : (" more elements truncated)" : String).length = 25 := rfl
        rw [h5, h25]
        omega
      have heq : addElementLines total (l :: rest) budget included =
          (["... (" ++ Nat.repr (total - included) ++ " more elements truncated)"],
           budget - ((("... (" ++ Nat.repr (total - included) ++
             " more elements truncated)").length : Int) + 1)) := by
        simp only [addElementLines, if_neg hb]
      rw [heq]
      constructor
      · simp [intLen]
      · simp only
        omega

/-- Accounting and bound for the heading-line loop of `_truncate_ir`. -/
theorem addHeadingLines_spec :
    ∀ (hls : List String) (budget : Int),
      intLen (addHeadingLines hls budget).1
          = budget - (addHeadingLines hls budget).2 ∧
      min budget 1 ≤ (addHeadingLines hls budget).2 := by
  intro hls
  induction hls with
  | nil =>
    intro budget
    constructor
    · simp [addHeadingLines, intLen]
    · simp only [addHeadingLines]
      omega
  | cons l rest ih =>
    intro budget
    by_cases hb : budget - ((l.length : Int) + 1) > 0
    · have heq : addHeadingLines (l :: rest) budget =
          (l :: (addHeadingLines rest (budget - ((l.length : Int) + 1))).1,
           (addHeadingLines rest (budget - ((l.length : Int) + 1))).2) := by
        simp only [addHeadingLines, if_pos hb]
      obtain ⟨ha, hbnd⟩ := ih (budget - ((l.length : Int) + 1))
      rw [heq]
      constructor
      · simp only [intLen_cons, ha]
        ring
      · simp only
        omega
    · have heq : addHeadingLines (l :: rest) budget = ([], budget) := by
        simp only [addHeadingLines, if_neg hb]
      rw [heq]
      constructor
      · simp [intLen]
      · simp only
        omega

/-- Spec for the page-structure block: exact cost accounting and
non-negativity of the remaining budget. -/
theorem truncHeadPart_spec (hls : List String) (budget2 : Int) :
    intLen (truncHeadPart hls budget2).1 = budget2 - (truncHeadPart hls budget2).2 ∧
    (0 ≤ budget2 → 0 ≤ (truncHeadPart hls budget2).2) := by
  unfold truncHeadPart
  have h17 : ((("PAGE STRUCTURE:" : String).length : Int) + 2) = 17 := by decide
  rw [h17]
  split_ifs with hc
  · dsimp only
    obtain ⟨ha, hb⟩ := addHeadingLines_spec hls (budget2 - 17)
    constructor
    · rw [intLen_cons, intLen_cons, ha]
      have h0 : (("" : String).length : Int) = 0 := by decide
      have hts : (("PAGE STRUCTURE:" : String).length : Int) = 15 := by decide
      rw [h0, hts]
      ring
    · intro _
      omega
  · dsimp only
    exact ⟨by simp [intLen], fun h => h⟩

/-- The body-text tail never costs more than the remaining budget (when
that is non-negative). -/
theorem truncTextPart_le (tlo : Option String) (budget4 : Int) :
    intLen (truncTextPart tlo budget4) ≤ max budget4 0 := by
  unfold truncTextPart
  split_ifs with hc
  · cases tlo with
    | none => simp [intLen]
    | some t =>
      rw [intLen_singleton]
      split_ifs with ht
      · have hlen : (pyTake t (budget4 - 1).toNat).length
            = min (budget4 - 1).toNat t.length := by
          unfold pyTake
          show (List.take (budget4 - 1).toNat t.data).length = _
          rw [List.length_take]
          rfl
        rw [hlen]
        have h2 : ((budget4 - 1).toNat : Int) = budget4 - 1 := Int.toNat_of_nonneg (by omega)
        have h1 : ((min (budget4 - 1).toNat t.length : Nat) : Int)
            ≤ ((budget4 - 1).toNat : Int) := by
          exact_mod_cast Nat.min_le_left _ _
        omega
      · push_neg at ht
        omega
  · simp [intLen]

/-- The central length bound: `_truncate_ir` stays within `char_limit`
whenever the always-kept header lines leave room for the fixed overhead
plus the worst-case truncation notice, and the element count is sane. -/
theorem truncateFromBuckets_le (b : IRBuckets) (char_limit : Nat)
    (H2 : b.element_lines.length < 10 ^ 50)
    (H1 : intLen (b.header_lines ++ [""]) + 22 + 81 ≤ (char_limit : Int)) :
    ((truncateFromBuckets b char_limit).length : Int) ≤ (char_limit : Int) := by
  obtain ⟨hdrs, hls, tlo, els⟩ := b
  dsimp only at H1 H2
  simp only [truncateFromBuckets]
  set B1 := truncBudget1 hdrs char_limit with hB1def
  set ep := addElementLines els.length els B1 0 with hepdef
  set hp := truncHeadPart hls ep.2 with hhpdef
  set tl := truncTextPart tlo hp.2 with htldef
  have hB1 : B1 = (char_limit : Int) - intLen (hdrs ++ [""]) - 22 := by
    rw [hB1def]
    unfold truncBudget1
    have h21 : (("INTERACTIVE ELEMENTS:" : String).length : Int) = 21 := by decide
    rw [h21]
    ring
  obtain ⟨he1, he2⟩ := addElementLines_spec els.length H2 els B1 0
  rw [← hepdef] at he1 he2
  obtain ⟨hh1, hh2⟩ := truncHeadPart_spec hls ep.2
  rw [← hhpdef] at hh1 hh2
  have ht1 : intLen tl ≤ max hp.2 0 := by rw [htldef]; exact truncTextPart_le tlo hp.2
  have hep2 : 0 ≤ ep.2 := by omega
  have hhp2 : 0 ≤ hp.2 := hh2 hep2
  have hne : hdrs ++ [""] ++ ["INTERACTIVE ELEMENTS:"] ++ ep.1 ++ hp.1 ++ tl ≠ [] := by simp
  have hj := pyJoin_nl_length (hdrs ++ [""] ++ ["INTERACTIVE ELEMENTS:"] ++ ep.1 ++ hp.1 ++ tl) hne
  have hc1 : intLen [""] = 1 := by decide
  have hc2 : intLen ["INTERACTIVE ELEMENTS:"] = 22 := by decide
  simp only [intLen_append] at hj H1 hB1
  rw [hc1, hc2] at hj
  rw [hc1] at H1 hB1
  omega

/-! ### Bucket classification of the Page IR lines -/

theorem bucketStep_header (b : IRBuckets) (l : String)
    (h1 : (pyStartsWith l "URL:" || pyStartsWith l "TITLE:") = true) :
    bucketStep b l = { b with header_lines := b.header_lines ++ [l] } := by
  unfold bucketStep
  rw [h1]
  simp

theorem bucketStep_heading (b : IRBuckets) (l : String)
    (h1 : (pyStartsWith l "URL:" || pyStartsWith l "TITLE:") = false)
    (h2 : (pyStartsWith l "  h" && pyInStr ":" (pyTake l 8)) = true) :
    bucketStep b l = { b with heading_lines := b.heading_lines ++ [l] } := by
  unfold bucketStep
  rw [h1, h2]
  simp

theorem bucketStep_text (b : IRBuckets) (l : String)
    (h1 : (pyStartsWith l "URL:" || pyStartsWith l "TITLE:") = false)
    (h2 : (pyStartsWith l "  h" && pyInStr ":" (pyTake l 8)) = false)
    (h3 : pyStartsWith l "TEXT:" = true) :
    bucketStep b l = { b with text_line := some l } := by
  unfold bucketStep
  rw [h1, h2, h3]
  simp

theorem bucketStep_element (b : IRBuckets) (l : String)
    (h1 : (pyStartsWith l "URL:" || pyStartsWith l "TITLE:") = false)
    (h2 : (pyStartsWith l "  h" && pyInStr ":" (pyTake l 8)) = false)
    (h3 : pyStartsWith l "TEXT:" = false)
    (h4 : pyStartsWith l "[" = true) :
    bucketStep b l = { b with element_lines := b.element_lines ++ [l] } := by
  unfold bucketStep
  rw [h1, h2, h3, h4]
  simp

theorem bucketStep_skip (b : IRBuckets) (l : String)
    (h1 : (pyStartsWith l "URL:" || pyStartsWith l "TITLE:") = false)
    (h2 : (pyStartsWith l "  h" && pyInStr ":" (pyTake l 8)) = false)
    (h3 : pyStartsWith l "TEXT:" = false)
    (h4 : pyStartsWith l "[" = false) :
    bucketStep b l = b := by
  unfold bucketStep
  rw [h1, h2, h3, h4]
  simp

theorem pyStartsWith_false_of_head_ne (s p : String) (c d : Char)
    (hs : s.data.head? = some c) (hp : p.data.head? = some d) (hne : d ≠ c) :
    pyStartsWith s p = false := by
  cases hsl : s.data with
  | nil => rw [hsl] at hs; cases hs
  | cons c0 cs0 =>
    cases hpl : p.data with
    | nil => rw [hpl] at hp; cases hp
    | cons d0 ds0 =>
      rw [hsl] at hs
      rw [hpl] at hp
      simp only [List.head?_cons, Option.some.injEq] at hs hp
      rw [← hs, ← hp] at hne
      exact pyStartsWith_head_ne s p c0 d0 cs0 ds0 hsl hpl hne

theorem pyStartsWith_lbracket (s : String) (h : s.data.head? = some '[') :
    pyStartsWith s "[" = true := by
  cases hsl : s.data with
  | nil => rw [hsl] at h; cases h
  | cons c0 cs0 =>
    rw [hsl] at h
    simp only [List.head?_cons, Option.some.injEq] at h
    subst h
    unfold pyStartsWith
    rw [hsl, show ("[" : String).data = ['['] from rfl]
    simp [List.isPrefixOf]

/-- Classification of a line built from a literal head of length 3-8
that itself passes the heading test. -/
theorem heading_shape_classify (pre t : String)
    (hu : pyStartsWith pre "URL:" = false) (htt : pyStartsWith pre "TITLE:" = false)
    (hh : pyStartsWith pre "  h" = true) (hc : pyInStr ":" pre = true)
    (hul : ("URL:" : String).length ≤ pre.length)
    (htl : ("TITLE:" : String).length ≤ pre.length)
    (hhl : ("  h" : String).length ≤ pre.length)
    (h8 : pre.length ≤ 8) :
    (pyStartsWith (pre ++ t) "URL:" || pyStartsWith (pre ++ t) "TITLE:") = false ∧
    (pyStartsWith (pre ++ t) "  h" && pyInStr ":" (pyTake (pre ++ t) 8)) = true := by
  constructor
  · rw [pyStartsWith_append_eq pre t "URL:" hul, pyStartsWith_append_eq pre t "TITLE:" htl,
      hu, htt]
    rfl
  · rw [pyStartsWith_append_eq pre t "  h" hhl, hh, pyTake_append_of_le pre t 8 h8,
      pyInStr_append_left ":" pre _ hc]
    rfl

/-- Every line of `irHeadLines` lands in the heading bucket. -/
theorem irHeadLines_classify (soup : DomNode) :
    ∀ l ∈ irHeadLines soup,
      (pyStartsWith l "URL:" || pyStartsWith l "TITLE:") = false ∧
      (pyStartsWith l "  h" && pyInStr ":" (pyTake l 8)) = true := by
  intro l hl
  unfold irHeadLines at hl
  rw [List.mem_filterMap] at hl
  obtain ⟨e, he, hfe⟩ := hl
  rw [List.mem_filter] at he
  dsimp only at hfe
  split at hfe
  case isFalse => cases hfe
  case isTrue hne =>
    simp only [Option.some.injEq] at hfe
    subst hfe
    have htag := he.2
    simp only [Bool.or_eq_true, beq_iff_eq] at htag
    rcases htag with (h1 | h2) | h3
    · rw [h1, show ("  " ++ "h1" ++ ": " : String) = "  h1: " from rfl]
      exact heading_shape_classify "  h1: " _ (by decide) (by decide) (by decide) (by decide)
        (by decide) (by decide) (by decide) (by decide)
    · rw [h2, show ("  " ++ "h2" ++ ": " : String) = "  h2: " from rfl]
      exact heading_shape_classify "  h2: " _ (by decide) (by decide) (by decide) (by decide)
        (by decide) (by decide) (by decide) (by decide)
    · rw [h3, show ("  " ++ "h3" ++ ": " : String) = "  h3: " from rfl]
      exact heading_shape_classify "  h3: " _ (by decide) (by decide) (by decide) (by decide)
        (by decide) (by decide) (by decide) (by decide)

/-- The TEXT summary line lands in the text bucket. -/
theorem text_line_classify (t : String) :
    (pyStartsWith ("TEXT: " ++ t) "URL:" || pyStartsWith ("TEXT: " ++ t) "TITLE:") = false ∧
    (pyStartsWith ("TEXT: " ++ t) "  h" && pyInStr ":" (pyTake ("TEXT: " ++ t) 8)) = false ∧
    pyStartsWith ("TEXT: " ++ t) "TEXT:" = true := by
  refine ⟨?_, ?_, ?_⟩
  · rw [pyStartsWith_append_eq "TEXT: " t "URL:" (by decide),
      pyStartsWith_append_eq "TEXT: " t "TITLE:" (by decide)]
    decide
  · rw [pyStartsWith_append_eq "TEXT: " t "  h" (by decide)]
    rfl
  · rw [pyStartsWith_append_eq "TEXT: " t "TEXT:" (by decide)]
    decide

/-- A rendered candidate line always begins with an opening bracket. -/
theorem format_head (c : Candidate) :
    (format_candidate_compact c).data.head? = some '[' := by
  unfold format_candidate_compact
  dsimp only [List.cons_append, List.nil_append]
  rw [show ∀ (x y : String) (r : List String),
      pyJoin " " (x :: y :: r) = x ++ " " ++ pyJoin " " (y :: r) from fun x y r => rfl]
  rw [String.data_append, String.data_append, String.data_append, String.data_append,
    show ("[" : String).data = ['['] from rfl]
  rfl

/-- A rendered candidate line lands in the element bucket. -/
theorem candidate_line_classify (c : Candidate) :
    (pyStartsWith (format_candidate_compact c) "URL:"
      || pyStartsWith (format_candidate_compact c) "TITLE:") = false ∧
    (pyStartsWith (format_candidate_compact c) "  h"
      && pyInStr ":" (pyTake (format_candidate_compact c) 8)) = false ∧
    pyStartsWith (format_candidate_compact c) "TEXT:" = false ∧
    pyStartsWith (format_candidate_compact c) "[" = true := by
  have hh := format_head c
  refine ⟨?_, ?_, ?_, ?_⟩
  · rw [pyStartsWith_false_of_head_ne _ "URL:" '[' 'U' hh rfl (by decide),
      pyStartsWith_false_of_head_ne _ "TITLE:" '[' 'T' hh rfl (by decide)]
    rfl
  · rw [pyStartsWith_false_of_head_ne _ "  h" '[' ' ' hh rfl (by decide)]
    rfl
  · exact pyStartsWith_false_of_head_ne _ "TEXT:" '[' 'T' hh rfl (by decide)
  · exact pyStartsWith_lbracket _ hh

/-- Folding heading-classified lines appends them to the heading bucket. -/
theorem foldl_bucket_headings (hls : List String)
    (hc : ∀ l ∈ hls,
      (pyStartsWith l "URL:" || pyStartsWith l "TITLE:") = false ∧
      (pyStartsWith l "  h" && pyInStr ":" (pyTake l 8)) = true) :
    ∀ b : IRBuckets, hls.foldl bucketStep b
      = { b with heading_lines := b.heading_lines ++ hls } := by
  induction hls with
  | nil => intro b; simp
  | cons l t ih =>
    intro b
    obtain ⟨h1, h2⟩ := hc l (by simp)
    rw [List.foldl_cons, bucketStep_heading b l h1 h2,
      ih (fun x hx => hc x (by simp [hx]))]
    simp

/-- Folding element-classified lines appends them to the element bucket. -/
theorem foldl_bucket_elements (els : List String)
    (hc : ∀ l ∈ els,
      (pyStartsWith l "URL:" || pyStartsWith l "TITLE:") = false ∧
      (pyStartsWith l "  h" && pyInStr ":" (pyTake l 8)) = false ∧
      pyStartsWith l "TEXT:" = false ∧
      pyStartsWith l "[" = true) :
    ∀ b : IRBuckets, els.foldl bucketStep b
      = { b with element_lines := b.element_lines ++ els } := by
  induction els with
  | nil => intro b; simp
  | cons l t ih =>
    intro b
    obtain ⟨h1, h2, h3, h4⟩ := hc l (by simp)
    rw [List.foldl_cons, bucketStep_element b l h1 h2 h3 h4,
      ih (fun x hx => hc x (by simp [hx]))]
    simp

/-- The bucket classification of the assembled Page IR lines: URL/TITLE
land in the header bucket, headings in the heading bucket, the TEXT
summary (when present) in the text slot, candidate lines in the element
bucket, and the two section headers and blank lines are dropped. -/
theorem bucketLines_buildLines (soup : DomNode) (url title : String)
    (cands : List Candidate) :
    bucketLines (buildLines soup url title cands) =
      ⟨["URL: " ++ url, "TITLE: " ++ title], irHeadLines soup,
       if irBodyText soup ≠ "" then some ("TEXT: " ++ irBodyText soup) else none,
       cands.map format_candidate_compact⟩ := by
  unfold bucketLines buildLines
  have c1 : (pyStartsWith ("URL: " ++ url) "URL:"
      || pyStartsWith ("URL: " ++ url) "TITLE:") = true := by
    rw [pyStartsWith_append_eq "URL: " url "URL:" (by decide)]
    rfl
  have c2 : (pyStartsWith ("TITLE: " ++ title) "URL:"
      || pyStartsWith ("TITLE: " ++ title) "TITLE:") = true := by
    rw [pyStartsWith_append_eq "TITLE: " title "URL:" (by decide),
      pyStartsWith_append_eq "TITLE: " title "TITLE:" (by decide)]
    decide
  have h0 : ([("URL: " ++ url), ("TITLE: " ++ title), "", "PAGE STRUCTURE:"]).foldl
      bucketStep ⟨[], [], none, []⟩
      = ⟨["URL: " ++ url, "TITLE: " ++ title], [], none, []⟩ := by
    rw [List.foldl_cons, bucketStep_header _ _ c1,
      List.foldl_cons, bucketStep_header _ _ c2,
      List.foldl_cons, bucketStep_skip _ _ (by decide) (by decide) (by decide) (by decide),
      List.foldl_cons, bucketStep_skip _ _ (by decide) (by decide) (by decide) (by decide),
      List.foldl_nil]
    simp
  have hSkipEmpty : ∀ b : IRBuckets, [("" : String)].foldl bucketStep b = b := by
    intro b
    rw [List.foldl_cons, bucketStep_skip _ _ (by decide) (by decide) (by decide) (by decide),
      List.foldl_nil]
  have hSkipIE : ∀ b : IRBuckets,
      [("INTERACTIVE ELEMENTS:" : String)].foldl bucketStep b = b := by
    intro b
    rw [List.foldl_cons, bucketStep_skip _ _ (by decide) (by decide) (by decide) (by decide),
      List.foldl_nil]
  have helems := foldl_bucket_elements (cands.map format_candidate_compact) (by
    intro l hl
    rw [List.mem_map] at hl
    obtain ⟨c, _, hfc⟩ := hl
    subst hfc
    exact candidate_line_classify c)
  rw [List.foldl_append, List.foldl_append, List.foldl_append, List.foldl_append,
    List.foldl_append, h0,
    foldl_bucket_headings (irHeadLines soup) (irHeadLines_classify soup),
    hSkipEmpty, hSkipIE, helems]
  by_cases hb : irBodyText soup ≠ ""
  · obtain ⟨t1, t2, t3⟩ := text_line_classify (irBodyText soup)
    have hText : ∀ b : IRBuckets,
        [("TEXT: " ++ irBodyText soup)].foldl bucketStep b
          = { b with text_line := some ("TEXT: " ++ irBodyText soup) } := by
      intro b
      rw [List.foldl_cons, bucketStep_text _ _ t1 t2 t3, List.foldl_nil]
    rw [if_pos hb, if_pos hb, hText]
    simp
  · rw [if_neg hb, if_neg hb, List.foldl_nil]
    simp

/-- C2 (amended): the Page IR length respects `char_limit` whenever the
always-kept URL and TITLE header lines leave room for the fixed section
overhead plus the worst-case truncation-notice reserve
(`url.length + title.length + 118 ≤ char_limit`), for any candidate
count below `10^50`. -/
theorem build_page_ir_length_le (soup : DomNode) (url title : String)
    (cands : List Candidate) (max_tokens : Nat)
    (H1 : url.length + title.length + 118 ≤ charLimitOf max_tokens)
    (H2 : cands.length < 10 ^ 50) :
    (build_page_ir soup url title cands max_tokens).length ≤ charLimitOf max_tokens := by
  unfold build_page_ir
  dsimp only
  split_ifs with hgt
  · unfold truncateIR
    rw [bucketLines_buildLines soup url title cands]
    have hH2 : (IRBuckets.mk ["URL: " ++ url, "TITLE: " ++ title] (irHeadLines soup)
        (if irBodyText soup ≠ "" then some ("TEXT: " ++ irBodyText soup) else none)
        (cands.map format_candidate_compact)).element_lines.length < 10 ^ 50 := by
      dsimp only
      rw [List.length_map]
      exact H2
    have hH1 : intLen ((IRBuckets.mk ["URL: " ++ url, "TITLE: " ++ title]
        (irHeadLines soup)
        (if irBodyText soup ≠ "" then some ("TEXT: " ++ irBodyText soup) else none)
        (cands.map format_candidate_compact)).header_lines ++ [""]) + 22 + 81
          ≤ ((charLimitOf max_tokens : Nat) : Int) := by
      dsimp only
      rw [show (["URL: " ++ url, "TITLE: " ++ title] ++ [""])
          = ["URL: " ++ url, "TITLE: " ++ title, ""] from rfl]
      rw [intLen_cons, intLen_cons, intLen_cons,
        show intLen [] = 0 from rfl,
        String.length_append, String.length_append]
      have h5 : ("URL: " : String).length = 5 := rfl
      have h7 : ("TITLE: " : String).length = 7 := rfl
      have h0 : ("" : String).length = 0 := rfl
      rw [h5, h7, h0]
      push_cast
      omega
    have := truncateFromBuckets_le _ (charLimitOf max_tokens) hH2 hH1
    exact_mod_cast this
  · omega

/-- Witness for `build_page_ir_length_le` on a small concrete page. -/
theorem build_page_ir_length_le_witness :
    (("http://localhost/x" : String).length + ("T" : String).length + 118
        ≤ charLimitOf 1200) ∧
    (build_page_ir (DomNode.elem "[document]" [] []) "http://localhost/x" "T" [] 1200).length
        ≤ charLimitOf 1200 :=
  ⟨by decide,
   build_page_ir_length_le (DomNode.elem "[document]" [] []) "http://localhost/x" "T" []
     1200 (by decide) (by decide)⟩


/-- C2 counterexample: at the default `max_tokens = 1200`
(`char_limit = 4320`), a 4400-character URL makes `build_page_ir` return
a 4436-character string, because `_truncate_ir` always keeps the URL and
TITLE header lines whole. -/
theorem build_page_ir_exceeds_limit :
    charLimitOf 1200 = 4320 ∧
    4320 < (build_page_ir (DomNode.elem "[document]" [] []) longUrl "" [] 1200).length := by
  refine ⟨rfl, ?_⟩
  have hurl : longUrl.length = 4400 := by
    show (List.replicate 4400 'a').length = 4400
    exact List.length_replicate 4400 'a'
  have l1 : ("URL: " : String).length = 5 := rfl
  have l2 : ("TITLE: " : String).length = 7 := rfl
  have l3 : ("" : String).length = 0 := rfl
  have l4 : ("PAGE STRUCTURE:" : String).length = 15 := rfl
  have l5 : ("INTERACTIVE ELEMENTS:" : String).length = 21 := rfl
  have hlines : buildLines (DomNode.elem "[document]" [] []) longUrl "" [] =
      ["URL: " ++ longUrl, "TITLE: " ++ "", "", "PAGE STRUCTURE:", "",
       "INTERACTIVE ELEMENTS:"] := by
    unfold buildLines
    rw [show irHeadLines (DomNode.elem "[document]" [] []) = [] from rfl,
      show irBodyText (DomNode.elem "[document]" [] []) = "" from rfl,
      if_neg (by simp)]
    simp only [List.map_nil, List.append_nil, List.nil_append, List.cons_append]
  have hjoinN : (pyJoin "\n" ["URL: " ++ longUrl, "TITLE: " ++ "", "",
      "PAGE STRUCTURE:", "", "INTERACTIVE ELEMENTS:"]).length = 4453 := by
    have h := pyJoin_nl_length ["URL: " ++ longUrl, "TITLE: " ++ "", "",
      "PAGE STRUCTURE:", "", "INTERACTIVE ELEMENTS:"] (by simp)
    rw [intLen_cons, intLen_cons, intLen_cons, intLen_cons, intLen_cons, intLen_cons,
      show intLen [] = 0 from rfl, String.length_append, String.length_append,
      hurl, l1, l2, l3, l4, l5] at h
    omega
  have hbkt : bucketLines ["URL: " ++ longUrl, "TITLE: " ++ "", "", "PAGE STRUCTURE:",
      "", "INTERACTIVE ELEMENTS:"]
      = ⟨["URL: " ++ longUrl, "TITLE: " ++ ""], [], none, []⟩ := by
    have hb := bucketLines_buildLines (DomNode.elem "[document]" [] []) longUrl "" []
    rw [show irHeadLines (DomNode.elem "[document]" [] []) = [] from rfl,
      show irBodyText (DomNode.elem "[document]" [] []) = "" from rfl,
      if_neg (by simp), List.map_nil, hlines] at hb
    exact hb
  have hB1 : truncBudget1 ["URL: " ++ longUrl, "TITLE: " ++ ""] 4320 = -117 := by
    unfold truncBudget1
    rw [show (["URL: " ++ longUrl, "TITLE: " ++ ""] ++ [""])
        = ["URL: " ++ longUrl, "TITLE: " ++ "", ""] from rfl,
      intLen_cons, intLen_cons, intLen_cons, show intLen [] = 0 from rfl,
      String.length_append, String.length_append, hurl, l1, l2, l3, l5]
    omega
  have htr : (truncateFromBuckets
      ⟨["URL: " ++ longUrl, "TITLE: " ++ ""], [], none, []⟩ 4320).length = 4436 := by
    unfold truncateFromBuckets
    dsimp only
    rw [hB1, show addElementLines ([] : List String).length [] (-117) 0 = ([], -117) from rfl,
      show truncHeadPart [] (-117) = ([], -117) from by
        unfold truncHeadPart
        simp,
      show truncTextPart none (-117) = [] from by
        unfold truncTextPart
        rw [if_neg (by decide)]]
    dsimp only
    rw [show (["URL: " ++ longUrl, "TITLE: " ++ ""] ++ [""] ++ ["INTERACTIVE ELEMENTS:"]
        ++ [] ++ [] ++ [] : List String)
        = ["URL: " ++ longUrl, "TITLE: " ++ "", "", "INTERACTIVE ELEMENTS:"] from by simp]
    have h := pyJoin_nl_length
      ["URL: " ++ longUrl, "TITLE: " ++ "", "", "INTERACTIVE ELEMENTS:"] (by simp)
    rw [intLen_cons, intLen_cons, intLen_cons, intLen_cons,
      show intLen [] = 0 from rfl, String.length_append, String.length_append,
      hurl, l1, l2, l3, l5] at h
    omega
  have hbuild : build_page_ir (DomNode.elem "[document]" [] []) longUrl "" [] 1200
      = truncateFromBuckets ⟨["URL: " ++ longUrl, "TITLE: " ++ ""], [], none, []⟩ 4320 := by
    unfold build_page_ir
    dsimp only
    rw [show charLimitOf 1200 = 4320 from rfl, hlines, if_pos (by rw [hjoinN]; omega)]
    unfold truncateIR
    rw [hbkt]
  rw [hbuild, htr]
  omega

/-- C8 counterexample: the stored pair is compared through the joined
string `sig + "@" + url`, so a changed (signature, url) pair whose join
collides with the stored one does NOT reset the counter: after
`(sig, url) = ("a@b", "c")`, the changed pair `("a", "b@c")` still
increments to 2 and yields a hint. -/
theorem check_loop_reset_collision :
    (("a" : String), ("b@c" : String)) ≠ ("a@b", "c") ∧
    (check_loop (some (check_loop none "c" "a@b").2) "b@c" "a").1 ≠ none ∧
    (check_loop (some (check_loop none "c" "a@b").2) "b@c" "a").2.repeat_count = 2 := by
  decide

/-- C8 (amended): for one task, identical `(signature, url)` calls yield
no hint on the first call and a hint from the second on, with the
counter at 1, 2, 3; a call whose joined `sig + "@" + url` string differs
from the stored one resets the counter to 1 and returns no hint. -/
theorem check_loop_hint_schedule (url sig : String) :
    (check_loop none url sig).1 = none ∧
    (check_loop none url sig).2 = ⟨some sig, some url, 1⟩ ∧
    (check_loop (some ⟨some sig, some url, 1⟩) url sig).1.isSome = true ∧
    (check_loop (some ⟨some sig, some url, 1⟩) url sig).2 = ⟨some sig, some url, 2⟩ ∧
    (check_loop (some ⟨some sig, some url, 2⟩) url sig).1.isSome = true ∧
    (check_loop (some ⟨some sig, some url, 2⟩) url sig).2 = ⟨some sig, some url, 3⟩ ∧
    (∀ url2 sig2, sig2 ++ "@" ++ url2 ≠ sig ++ "@" ++ url →
      (check_loop (some ⟨some sig, some url, 2⟩) url2 sig2).1 = none ∧
      (check_loop (some ⟨some sig, some url, 2⟩) url2 sig2).2 = ⟨some sig2, some url2, 1⟩) := by
  refine ⟨?_, ?_, ?_, ?_, ?_, ?_, ?_⟩
  · simp [check_loop]
  · simp [check_loop]
  · simp [check_loop, pyStrOpt]
  · simp [check_loop, pyStrOpt]
  · simp [check_loop, pyStrOpt]
  · simp [check_loop, pyStrOpt]
  · intro url2 sig2 hne
    have hb : (sig2 ++ "@" ++ url2 == sig ++ "@" ++ url) = false :=
      beq_eq_false_iff_ne.mpr hne
    constructor
    · simp [check_loop, pyStrOpt, hb]
    · simp [check_loop, pyStrOpt, hb]

/-- Witness for `check_loop_hint_schedule` at concrete strings. -/
theorem check_loop_hint_schedule_witness :
    (check_loop none "u" "s").1 = none ∧
    (check_loop (some ⟨some "s", some "u", 2⟩) "u2" "s2").1 = none :=
  ⟨(check_loop_hint_schedule "u" "s").1,
   ((check_loop_hint_schedule "u" "s").2.2.2.2.2.2 "u2" "s2" (by decide)).1⟩

/-- The navigate path of `build_action`: when the normalized,
seed-augmented target matches the current URL on path+query, the result
is a scroll-down. -/
theorem build_action_navigate_guard_aux (d : Decision) (cands : List Candidate)
    (cur : String) (si : Int) (u nu fu : String)
    (hA : dget d "action" (.vstr "") = .vstr "navigate")
    (hU : dget d "url" (.vstr "") = .vstr u)
    (hN : normalize_url u = .ok nu)
    (hP : preserve_seed nu cur = .ok fu)
    (hS : same_path_query fu cur = .ok true) :
    build_action d cands cur si = .ok (some (.scroll true false)) := by
  have hval : validate_and_fix d cands = some d := by
    unfold validate_and_fix
    rw [hA]
    simp [pyEq]
  unfold build_action
  rw [hval]
  dsimp only
  rw [hA, if_neg (by decide), if_neg (by decide), if_neg (by decide), if_pos (by decide),
    hU]
  dsimp only
  unfold buildNavigate
  rw [hN]
  dsimp only
  rw [hP]
  dsimp only
  rw [hS]
  dsimp only
  rw [if_pos rfl]

/-- C7: a navigate decision whose normalization, seed propagation and
path-and-query comparison against the current URL all succeed with the
comparison true yields a scroll-down, never a NavigateAction; in
particular navigating to `/x` from `http://localhost/x` scrolls. -/
theorem build_action_navigate_same_scrolls :
    (∀ (d : Decision) (cands : List Candidate) (cur : String) (si : Int) (u nu fu : String),
      dget d "action" (.vstr "") = .vstr "navigate" →
      dget d "url" (.vstr "") = .vstr u →
      normalize_url u = .ok nu →
      preserve_seed nu cur = .ok fu →
      same_path_query fu cur = .ok true →
      build_action d cands cur si = .ok (some (.scroll true false))) ∧
    (∀ cands : List Candidate,
      build_action [("action", .vstr "navigate"), ("url", .vstr "/x")] cands
        "http://localhost/x" 99 = .ok (some (.scroll true false))) :=
  ⟨build_action_navigate_guard_aux,
   fun cands => build_action_navigate_guard_aux _ cands "http://localhost/x" 99 "/x"
     "http://localhost/x" "http://localhost/x" rfl rfl rfl rfl rfl⟩

/-- Witness for `build_action_navigate_same_scrolls` with an empty
candidate list. -/
theorem build_action_navigate_same_scrolls_witness :
    build_action [("action", .vstr "navigate"), ("url", .vstr "/x")] []
      "http://localhost/x" 99 = .ok (some (.scroll true false)) :=
  build_action_navigate_same_scrolls.2 []

/-- C6: `validate_and_fix` infers the missing `text` of a `type`
decision in the fixed order password -> user/email label -> date
placeholder -> `@` placeholder -> failure, and of a `select` decision
as the first option when any exist, else failure. -/
theorem validate_and_fix_text_inference :
    (∀ (d : Decision) (cands : List Candidate) (cid : Int) (c : Candidate),
      dget d "action" (.vstr "") = .vstr "type" →
      py_int (dget d "candidate_id" (.vint (-1))) = some cid →
      0 ≤ cid → cid < (cands.length : Int) →
      cands.getD cid.toNat default = c →
      pyTruthy (dget d "text" (.vstr "")) = false →
      ((c.input_type = "password" →
          validate_and_fix d cands = some (dset d "text" (.vstr "<password>"))) ∧
       (c.input_type ≠ "password" →
          (pyInStr "user" (pyLower c.label) || pyInStr "email" (pyLower c.label)) = true →
          validate_and_fix d cands = some (dset d "text" (.vstr "<username>"))) ∧
       (c.input_type ≠ "password" →
          (pyInStr "user" (pyLower c.label) || pyInStr "email" (pyLower c.label)) = false →
          (c.input_type = "date" ∧ c.placeholder ≠ "" ∧
            matchesDatePrefix (pyStrip c.placeholder) = true) →
          validate_and_fix d cands = some (dset d "text" (.vstr (pyStrip c.placeholder)))) ∧
       (c.input_type ≠ "password" →
          (pyInStr "user" (pyLower c.label) || pyInStr "email" (pyLower c.label)) = false →
          ¬ (c.input_type = "date" ∧ c.placeholder ≠ "" ∧
            matchesDatePrefix (pyStrip c.placeholder) = true) →
          (c.placeholder ≠ "" ∧ pyInStr "@" c.placeholder = true) →
          validate_and_fix d cands = some (dset d "text" (.vstr "<username>"))) ∧
       (c.input_type ≠ "password" →
          (pyInStr "user" (pyLower c.label) || pyInStr "email" (pyLower c.label)) = false →
          ¬ (c.input_type = "date" ∧ c.placeholder ≠ "" ∧
            matchesDatePrefix (pyStrip c.placeholder) = true) →
          ¬ (c.placeholder ≠ "" ∧ pyInStr "@" c.placeholder = true) →
          validate_and_fix d cands = none))) ∧
    (∀ (d : Decision) (cands : List Candidate) (cid : Int) (c : Candidate),
      dget d "action" (.vstr "") = .vstr "select" →
      py_int (dget d "candidate_id" (.vint (-1))) = some cid →
      0 ≤ cid → cid < (cands.length : Int) →
      cands.getD cid.toNat default = c →
      pyTruthy (dget d "text" (.vstr "")) = false →
      ((∀ o os, c.options = o :: os →
          validate_and_fix d cands = some (dset d "text" (.vstr o))) ∧
       (c.options = [] → validate_and_fix d cands = none))) := by
  constructor
  · intro d cands cid c hA hcid h0 hlt hc htext
    have hred : validate_and_fix d cands =
        (if c.input_type = "password" then some (dset d "text" (.vstr "<password>"))
         else if (pyInStr "user" (pyLower c.label) || pyInStr "email" (pyLower c.label)) then
           some (dset d "text" (.vstr "<username>"))
         else if c.input_type = "date" ∧ c.placeholder ≠ "" ∧
             matchesDatePrefix (pyStrip c.placeholder) then
           some (dset d "text" (.vstr (pyStrip c.placeholder)))
         else if c.placeholder ≠ "" ∧ pyInStr "@" c.placeholder then
           some (dset d "text" (.vstr "<username>"))
         else none) := by
      unfold validate_and_fix
      rw [hA, if_neg (by decide), if_pos (by decide), hcid]
      dsimp only
      rw [if_neg (by omega), if_neg (by decide), hc, if_pos (by decide),
        if_pos (by simp [htext])]
    refine ⟨?_, ?_, ?_, ?_, ?_⟩
    · intro hpw
      rw [hred, if_pos hpw]
    · intro hnp huser
      rw [hred, if_neg hnp, if_pos huser]
    · intro hnp hue hdate
      rw [hred, if_neg hnp, if_neg (by simp [hue]), if_pos hdate]
    · intro hnp hue hnd hat
      rw [hred, if_neg hnp, if_neg (by simp [hue]), if_neg hnd, if_pos hat]
    · intro hnp hue hnd hna
      rw [hred, if_neg hnp, if_neg (by simp [hue]), if_neg hnd, if_neg hna]
  · intro d cands cid c hA hcid h0 hlt hc htext
    have hred : validate_and_fix d cands =
        (match c.options with
         | o :: _ => some (dset d "text" (.vstr o))
         | [] => none) := by
      unfold validate_and_fix
      rw [hA, if_neg (by decide), if_pos (by decide), hcid]
      dsimp only
      rw [if_neg (by omega), if_neg (by decide), hc, if_neg (by decide),
        if_pos (by simp [htext])]
    constructor
    · intro o os hopt
      rw [hred, hopt]
    · intro hopt
      rw [hred, hopt]

/-- Witness for `validate_and_fix_text_inference`: a password field gets
`<password>`, a select with options gets the first option. -/
theorem validate_and_fix_text_inference_witness :
    validate_and_fix [("action", .vstr "type"), ("candidate_id", .vint 0)]
        [{ id := 0, tag := "input", text := "", selector := sel_text "",
           attrs := [], input_type := "password" }]
      = some [("action", .vstr "type"), ("candidate_id", .vint 0),
              ("text", .vstr "<password>")] ∧
    validate_and_fix [("action", .vstr "select"), ("candidate_id", .vint 0)]
        [{ id := 0, tag := "select", text := "", selector := sel_text "",
           attrs := [], options := ["USA", "Canada"] }]
      = some [("action", .vstr "select"), ("candidate_id", .vint 0),
              ("text", .vstr "USA")] := by
  constructor
  · exact (validate_and_fix_text_inference.1
      [("action", .vstr "type"), ("candidate_id", .vint 0)]
      [{ id := 0, tag := "input", text := "", selector := sel_text "",
         attrs := [], input_type := "password" }] 0
      { id := 0, tag := "input", text := "", selector := sel_text "",
        attrs := [], input_type := "password" }
      rfl rfl (by decide) (by decide) rfl rfl).1 rfl
  · exact ((validate_and_fix_text_inference.2
      [("action", .vstr "select"), ("candidate_id", .vint 0)]
      [{ id := 0, tag := "select", text := "", selector := sel_text "",
         attrs := [], options := ["USA", "Canada"] }] 0
      { id := 0, tag := "select", text := "", selector := sel_text "",
        attrs := [], options := ["USA", "Canada"] }
      rfl rfl (by decide) (by decide) rfl rfl).1 "USA" ["Canada"] rfl)

/-! ### Dict-update and coercion lemmas for the action builder -/

theorem lookup_map_set (k : String) (v : PyV) :
    ∀ d : Decision, (d.lookup k).isSome →
      (d.map (fun p => if p.1 = k then (k, v) else p)).lookup k = some v := by
  intro d
  induction d with
  | nil => intro h; simp at h
  | cons p t ih =>
    intro h
    by_cases hk : p.1 = k
    · rw [List.map_cons, if_pos hk]
      simp [List.lookup]
    · have hkk : (k == p.1) = false := beq_eq_false_iff_ne.mpr (fun he => hk he.symm)
      rw [List.map_cons, if_neg hk]
      simp only [List.lookup, hkk] at h ⊢
      exact ih h

theorem lookup_map_set_other (k : String) (v : PyV) (k2 : String) (hne : k2 ≠ k) :
    ∀ d : Decision,
      (d.map (fun p => if p.1 = k then (k, v) else p)).lookup k2 = d.lookup k2 := by
  intro d
  induction d with
  | nil => rfl
  | cons p t ih =>
    by_cases hk : p.1 = k
    · have h1 : (k2 == k) = false := beq_eq_false_iff_ne.mpr hne
      have h2 : (k2 == p.1) = false := by rw [hk]; exact h1
      rw [List.map_cons, if_pos hk]
      simp only [List.lookup, h1, h2]
      exact ih
    · rw [List.map_cons, if_neg hk]
      cases hk2 : (k2 == p.1) <;> simp [List.lookup, hk2, ih]

theorem lookup_append_single (k : String) (v : PyV) :
    ∀ d : Decision, d.lookup k = none → ((d ++ [(k, v)]).lookup k) = some v := by
  intro d
  induction d with
  | nil => intro _; simp [List.lookup]
  | cons p t ih =>
    intro h
    by_cases hk : k = p.1
    · simp [List.lookup, beq_iff_eq.mpr hk] at h
    · simp only [List.lookup, List.cons_append, beq_eq_false_iff_ne.mpr hk] at h ⊢
      exact ih h

theorem lookup_append_single_other (k : String) (v : PyV) (k2 : String) (hne : k2 ≠ k) :
    ∀ d : Decision, ((d ++ [(k, v)]).lookup k2) = d.lookup k2 := by
  intro d
  induction d with
  | nil => simp [List.lookup, beq_eq_false_iff_ne.mpr hne]
  | cons p t ih =>
    simp only [List.cons_append, List.lookup]
    cases hk2 : (k2 == p.1) <;> simp [hk2, ih]

/-- Setting a key makes it readable. -/
theorem lookup_dset_self (d : Decision) (k : String) (v : PyV) :
    (dset d k v).lookup k = some v := by
  unfold dset
  split_ifs with h
  · exact lookup_map_set k v d h
  · exact lookup_append_single k v d (by
      cases hl : d.lookup k with
      | none => rfl
      | some w => rw [hl] at h; simp at h)

/-- Setting a key leaves other keys unchanged. -/
theorem lookup_dset_other (d : Decision) (k : String) (v : PyV) (k2 : String)
    (hne : k2 ≠ k) : (dset d k v).lookup k2 = d.lookup k2 := by
  unfold dset
  split_ifs with h
  · exact lookup_map_set_other k v k2 hne d
  · exact lookup_append_single_other k v k2 hne d

theorem pyEq_vstr {v : PyV} {k : String} (h : pyEq v k = true) : v = .vstr k := by
  cases v with
  | vstr t => unfold pyEq at h; rw [beq_iff_eq.mp h]
  | vint n => cases h
  | vnone => cases h

theorem py_int_err_ok {v : PyV} {n : Int} (h : py_int v = some n) :
    py_int_err v = .ok n := by
  cases v with
  | vstr s =>
    simp only [py_int] at h
    simp only [py_int_err, h]
  | vint m =>
    unfold py_int at h
    simp only [Option.some.injEq] at h
    rw [h]
    rfl
  | vnone => cases h

theorem pyIndex_ok (l : List Candidate) (i : Int) (h0 : 0 ≤ i)
    (hlt : i < (l.length : Int)) :
    pyIndex l i = .ok (l.getD i.toNat default) := by
  unfold pyIndex
  rw [if_pos ⟨h0, hlt⟩]

theorem bool_ne_true {b : Bool} (h : b = false) : ¬ b = true := by
  rw [h]; decide

theorem splitOnFirst_mem (sep : Char) :
    ∀ (l a b : List Char), splitOnFirst sep l = some (a, b) →
      (∀ c, c ∈ a → c ∈ l) ∧ (∀ c, c ∈ b → c ∈ l) := by
  intro l
  induction l with
  | nil => intro a b h; exact Option.noConfusion h
  | cons x t ih =>
    intro a b h
    unfold splitOnFirst at h
    by_cases hx : x = sep
    · rw [if_pos hx] at h
      injection h with h
      rw [Prod.mk.injEq] at h
      obtain ⟨ha, hb⟩ := h
      subst ha
      subst hb
      exact ⟨fun c hc => absurd hc (List.not_mem_nil c),
             fun c hc => List.mem_cons_of_mem x hc⟩
    · rw [if_neg hx] at h
      cases hs : splitOnFirst sep t with
      | none => rw [hs] at h; exact Option.noConfusion h
      | some p =>
        obtain ⟨pa, pb⟩ := p
        rw [hs] at h
        dsimp only at h
        injection h with h
        rw [Prod.mk.injEq] at h
        obtain ⟨ha, hb⟩ := h
        subst ha
        subst hb
        obtain ⟨iha, ihb⟩ := ih pa pb hs
        constructor
        · intro c hc
          rcases List.mem_cons.mp hc with hcx | hcp
          · exact hcx ▸ List.mem_cons_self x t
          · exact List.mem_cons_of_mem x (iha c hcp)
        · intro c hc
          exact List.mem_cons_of_mem x (ihb c hc)

theorem takeNetloc_mem :
    ∀ l : List Char,
      (∀ c, c ∈ (takeNetloc l).1 → c ∈ l) ∧ (∀ c, c ∈ (takeNetloc l).2 → c ∈ l) := by
  intro l
  induction l with
  | nil =>
    exact ⟨fun c hc => absurd hc (List.not_mem_nil c),
           fun c hc => absurd hc (List.not_mem_nil c)⟩
  | cons x t ih =>
    unfold takeNetloc
    by_cases hx : x = '/' ∨ x = '?' ∨ x = '#'
    · rw [if_pos hx]
      exact ⟨fun c hc => absurd hc (List.not_mem_nil c), fun c hc => hc⟩
    · rw [if_neg hx]
      dsimp only
      constructor
      · intro c hc
        rcases List.mem_cons.mp hc with h1 | h2
        · exact h1 ▸ List.mem_cons_self x t
        · exact List.mem_cons_of_mem x (ih.1 c h2)
      · intro c hc
        exact List.mem_cons_of_mem x (ih.2 c hc)

theorem urlsplitScheme_rest_mem (l : List Char) :
    ∀ c, c ∈ (urlsplitScheme l).2 → c ∈ l := by
  unfold urlsplitScheme
  cases hs : splitOnFirst ':' l with
  | none => dsimp only; exact fun c hc => hc
  | some p =>
    obtain ⟨pa, pb⟩ := p
    dsimp only
    cases pa with
    | nil => exact fun c hc => hc
    | cons c0 rest =>
      dsimp only
      by_cases h0 : c0.isAlpha = true ∧ (c0 :: rest).all isSchemeChar = true
      · rw [if_pos h0]
        exact fun c hc => (splitOnFirst_mem ':' l (c0 :: rest) pb hs).2 c hc
      · rw [if_neg h0]
        exact fun c hc => hc

theorem ofNat_lower_noBracket {n : Nat} (h1 : 65 ≤ n) (h2 : n ≤ 90) :
    noBracket (Char.ofNat (n + 32)) = true := by
  have hall : ∀ m : Fin 26, noBracket (Char.ofNat (97 + m.1)) = true := by decide
  have he : n + 32 = 97 + (n - 65) := by omega
  rw [he]
  exact hall ⟨n - 65, by omega⟩

theorem toLower_bracket {c : Char} (h : noBracket c = true) :
    noBracket (Char.toLower c) = true := by
  unfold Char.toLower
  dsimp only
  split_ifs with hif
  · exact ofNat_lower_noBracket hif.1 hif.2
  · exact h

theorem urlsplitScheme_scheme_noBracket (l : List Char) (h : l.all noBracket = true) :
    (urlsplitScheme l).1.data.all noBracket = true := by
  unfold urlsplitScheme
  cases hs : splitOnFirst ':' l with
  | none => rfl
  | some p =>
    obtain ⟨pa, pb⟩ := p
    dsimp only
    cases pa with
    | nil => rfl
    | cons c0 rest =>
      dsimp only
      by_cases h0 : c0.isAlpha = true ∧ (c0 :: rest).all isSchemeChar = true
      · rw [if_pos h0]
        show ((c0 :: rest).map Char.toLower).all noBracket = true
        rw [List.all_map, List.all_eq_true]
        intro x hx
        have hxb : noBracket x = true := by
          rw [List.all_eq_true] at h
          exact h x ((splitOnFirst_mem ':' l (c0 :: rest) pb hs).1 x hx)
        exact toLower_bracket hxb
      · rw [if_neg h0]
        rfl

theorem splitNetloc_mem (l : List Char) :
    (∀ c, c ∈ (splitNetloc l).1 → c ∈ l) ∧ (∀ c, c ∈ (splitNetloc l).2 → c ∈ l) := by
  unfold splitNetloc
  split
  · rename_i rest
    constructor
    · intro c hc
      exact List.mem_cons_of_mem _ (List.mem_cons_of_mem _ ((takeNetloc_mem rest).1 c hc))
    · intro c hc
      exact List.mem_cons_of_mem _ (List.mem_cons_of_mem _ ((takeNetloc_mem rest).2 c hc))
  · exact ⟨fun c hc => absurd hc (List.not_mem_nil c), fun c hc => hc⟩

theorem splitFragment_mem (l : List Char) :
    (∀ c, c ∈ (splitFragment l).1 → c ∈ l) ∧ (∀ c, c ∈ (splitFragment l).2 → c ∈ l) := by
  unfold splitFragment
  cases hs : splitOnFirst '#' l with
  | none =>
    dsimp only
    exact ⟨fun c hc => hc, fun c hc => absurd hc (List.not_mem_nil c)⟩
  | some p =>
    obtain ⟨a, b⟩ := p
    dsimp only
    exact ⟨(splitOnFirst_mem '#' l a b hs).1,
           (splitOnFirst_mem '#' l a b hs).2⟩

theorem splitQuery_mem (l : List Char) :
    (∀ c, c ∈ (splitQuery l).1 → c ∈ l) ∧ (∀ c, c ∈ (splitQuery l).2 → c ∈ l) := by
  unfold splitQuery
  cases hs : splitOnFirst '?' l with
  | none =>
    dsimp only
    exact ⟨fun c hc => hc, fun c hc => absurd hc (List.not_mem_nil c)⟩
  | some p =>
    obtain ⟨a, b⟩ := p
    dsimp only
    exact ⟨(splitOnFirst_mem '?' l a b hs).1,
           (splitOnFirst_mem '?' l a b hs).2⟩

theorem urlsplitParts_bracketFree {u : String} (h : bracketFree u = true) :
    bracketFree (urlsplitParts u).scheme = true ∧
    bracketFree (urlsplitParts u).netloc = true ∧
    bracketFree (urlsplitParts u).path = true ∧
    bracketFree (urlsplitParts u).query = true ∧
    bracketFree (urlsplitParts u).fragment = true := by
  have hsch := urlsplitScheme_scheme_noBracket u.data h
  have hrest := urlsplitScheme_rest_mem u.data
  have hnp := splitNetloc_mem (urlsplitScheme u.data).2
  have hbf := splitFragment_mem (splitNetloc (urlsplitScheme u.data).2).2
  have hpq := splitQuery_mem (splitFragment (splitNetloc (urlsplitScheme u.data).2).2).1
  have hall : ∀ m : List Char, (∀ c, c ∈ m → c ∈ u.data) → m.all noBracket = true := by
    intro m hsub
    rw [List.all_eq_true]
    have hd : u.data.all noBracket = true := h
    rw [List.all_eq_true] at hd
    exact fun c hc => hd c (hsub c hc)
  refine ⟨hsch, ?_, ?_, ?_, ?_⟩
  · exact hall _ (fun c hc => hrest c (hnp.1 c hc))
  · exact hall _ (fun c hc => hrest c (hnp.2 c (hbf.1 c (hpq.1 c hc))))
  · exact hall _ (fun c hc => hrest c (hnp.2 c (hbf.1 c (hpq.2 c hc))))
  · exact hall _ (fun c hc => hrest c (hnp.2 c (hbf.2 c hc)))

theorem hasChar_false_of_bracketFree {s : String} (h : bracketFree s = true) :
    hasChar '[' s = false ∧ hasChar ']' s = false := by
  simp only [bracketFree, List.all_eq_true] at h
  constructor
  · cases ha : hasChar '[' s
    · rfl
    · exfalso
      simp only [hasChar, List.any_eq_true] at ha
      obtain ⟨x, hx, hxe⟩ := ha
      have hb := h x hx
      rw [beq_iff_eq.mp hxe] at hb
      exact absurd hb (by decide)
  · cases ha : hasChar ']' s
    · rfl
    · exfalso
      simp only [hasChar, List.any_eq_true] at ha
      obtain ⟨x, hx, hxe⟩ := ha
      have hb := h x hx
      rw [beq_iff_eq.mp hxe] at hb
      exact absurd hb (by decide)

theorem bracketFree_removeUnsafe {u : String} (h : bracketFree u = true) :
    bracketFree (removeUnsafe u) = true := by
  simp only [bracketFree, List.all_eq_true] at h ⊢
  intro c hc
  exact h c ((List.mem_filter.mp hc).1)

theorem urlsplit_ok {u : String} (h : bracketFree u = true) :
    urlsplit u = .ok (urlsplitParts (removeUnsafe u)) := by
  have h2 := (urlsplitParts_bracketFree (bracketFree_removeUnsafe h)).2.1
  have h3 := hasChar_false_of_bracketFree h2
  unfold urlsplit
  dsimp only
  have hcond : ((hasChar '[' (urlsplitParts (removeUnsafe u)).netloc
      && !(hasChar ']' (urlsplitParts (removeUnsafe u)).netloc))
      || (hasChar ']' (urlsplitParts (removeUnsafe u)).netloc
      && !(hasChar '[' (urlsplitParts (removeUnsafe u)).netloc))) = false := by
    rw [h3.1, h3.2]
    rfl
  rw [if_neg (bool_ne_true hcond)]

theorem bracketFree_append (a b : String) :
    bracketFree (a ++ b) = (bracketFree a && bracketFree b) := by
  simp [bracketFree, String.data_append, List.all_append]

theorem urlunsplit_bracketFree {p : UrlParts} (h1 : bracketFree p.scheme = true)
    (h2 : bracketFree p.netloc = true) (h3 : bracketFree p.path = true)
    (h4 : bracketFree p.query = true) (h5 : bracketFree p.fragment = true) :
    bracketFree (urlunsplit p) = true := by
  have ha : bracketFree "//" = true := by decide
  have hb : bracketFree "/" = true := by decide
  have hc : bracketFree ":" = true := by decide
  have hd : bracketFree "?" = true := by decide
  have he : bracketFree "#" = true := by decide
  unfold urlunsplit
  dsimp only
  split_ifs <;> simp [bracketFree_append, h1, h2, h3, h4, h5, ha, hb, hc, hd, he]

theorem hexDigit_noBracket : ∀ m : Fin 16, noBracket (hexDigit m.1) = true := by decide

theorem bracketFree_quote_plus (s : String) : bracketFree (quote_plus s) = true := by
  show ((s.data.map (fun c =>
    if c = ' ' then ['+']
    else if isUrlSafe c then [c]
    else ['%', hexDigit (c.toNat / 16 % 16), hexDigit (c.toNat % 16)])).flatten).all
      noBracket = true
  rw [List.all_eq_true]
  intro c hc
  rw [List.mem_flatten] at hc
  obtain ⟨blk, hblk, hcb⟩ := hc
  rw [List.mem_map] at hblk
  obtain ⟨ch, _, hfe⟩ := hblk
  subst hfe
  by_cases hsp : ch = ' '
  · rw [if_pos hsp] at hcb
    have hce : c = '+' := List.mem_singleton.mp hcb
    rw [hce]
    decide
  · rw [if_neg hsp] at hcb
    by_cases hsafe : isUrlSafe ch = true
    · rw [if_pos hsafe] at hcb
      have hce : c = ch := List.mem_singleton.mp hcb
      subst hce
      cases hbr : (c == '[' || c == ']') with
      | false =>
        show (!(c == '[' || c == ']')) = true
        rw [hbr]
        rfl
      | true =>
        exfalso
        rw [Bool.or_eq_true] at hbr
        rcases hbr with hx | hx
        · rw [beq_iff_eq.mp hx] at hsafe
          exact absurd hsafe (by decide)
        · rw [beq_iff_eq.mp hx] at hsafe
          exact absurd hsafe (by decide)
    · rw [if_neg hsafe] at hcb
      rcases List.mem_cons.mp hcb with h3 | h3
      · rw [h3]
        decide
      · rcases List.mem_cons.mp h3 with h4 | h4
        · rw [h4]
          exact hexDigit_noBracket ⟨ch.toNat / 16 % 16, Nat.mod_lt _ (by decide)⟩
        · have h5 : c = hexDigit (ch.toNat % 16) := List.mem_singleton.mp h4
          rw [h5]
          exact hexDigit_noBracket ⟨ch.toNat % 16, Nat.mod_lt _ (by decide)⟩

theorem bracketFree_pyJoin {sep : String} (hsep : bracketFree sep = true) :
    ∀ l : List String, (∀ x, x ∈ l → bracketFree x = true) →
      bracketFree (pyJoin sep l) = true := by
  intro l
  induction l with
  | nil => intro _; rfl
  | cons x t ih =>
    intro hl
    cases t with
    | nil => exact hl x (List.mem_singleton.mpr rfl)
    | cons y r =>
      show bracketFree (x ++ sep ++ pyJoin sep (y :: r)) = true
      rw [bracketFree_append, bracketFree_append,
        hl x (List.mem_cons_self x (y :: r)), hsep,
        ih (fun z hz => hl z (List.mem_cons_of_mem x hz))]
      rfl

theorem bracketFree_urlencode (params : List (String × List String)) :
    bracketFree (urlencode params) = true := by
  show bracketFree (pyJoin "&" ((params.map (fun p =>
    p.2.map (fun v => quote_plus p.1 ++ "=" ++ quote_plus v))).flatten)) = true
  refine bracketFree_pyJoin (by decide) _ ?_
  intro x hx
  rw [List.mem_flatten] at hx
  obtain ⟨blk, hblk, hxb⟩ := hx
  rw [List.mem_map] at hblk
  obtain ⟨p, _, hfe⟩ := hblk
  subst hfe
  rw [List.mem_map] at hxb
  obtain ⟨v, _, hve⟩ := hxb
  subst hve
  show bracketFree (quote_plus p.1 ++ "=" ++ quote_plus v) = true
  rw [bracketFree_append, bracketFree_append, bracketFree_quote_plus,
    bracketFree_quote_plus]
  rfl

theorem normalize_url_ok {u : String} (h : bracketFree u = true) :
    ∃ nu, normalize_url u = .ok nu ∧ bracketFree nu = true := by
  unfold normalize_url
  split_ifs with h1 h2 h3
  · exact ⟨"", rfl, by decide⟩
  · rw [urlsplit_ok h]
    refine ⟨_, rfl, ?_⟩
    obtain ⟨hts, htn, htp, htq, htf⟩ := urlsplitParts_bracketFree (bracketFree_removeUnsafe h)
    have hhttp : bracketFree "http" = true := by decide
    have hlocal : bracketFree "localhost" = true := by decide
    exact urlunsplit_bracketFree hhttp hlocal htp htq htf
  · refine ⟨_, rfl, ?_⟩
    rw [bracketFree_append, h]
    decide
  · refine ⟨_, rfl, ?_⟩
    rw [bracketFree_append, h]
    decide

theorem preserve_seed_ok {t c : String} (ht : bracketFree t = true)
    (hc : bracketFree c = true) :
    ∃ fu, preserve_seed t c = .ok fu ∧ bracketFree fu = true := by
  unfold preserve_seed
  split_ifs with h1
  · exact ⟨t, rfl, ht⟩
  · rw [urlsplit_ok ht, urlsplit_ok hc]
    dsimp only
    split_ifs with h2
    · refine ⟨_, rfl, ?_⟩
      obtain ⟨hts, htn, htp, htq, htf⟩ := urlsplitParts_bracketFree (bracketFree_removeUnsafe ht)
      exact urlunsplit_bracketFree hts htn htp (bracketFree_urlencode _) htf
    · exact ⟨t, rfl, ht⟩

theorem same_path_query_ok {a b : String} (ha : bracketFree a = true)
    (hb : bracketFree b = true) :
    ∃ r, same_path_query a b = .ok r := by
  unfold same_path_query
  split_ifs with h1
  · exact ⟨false, rfl⟩
  · rw [urlsplit_ok ha, urlsplit_ok hb]
    exact ⟨_, rfl⟩

/-- The navigate branch never raises and never yields "no action" on
bracket-free inputs. -/
theorem buildNavigate_ok {u cur : String} (hu : bracketFree u = true)
    (hcur : bracketFree cur = true) :
    ∃ a : ActionU, buildNavigate u cur = .ok (some a) := by
  obtain ⟨nu, hn, hbn⟩ := normalize_url_ok hu
  obtain ⟨fu, hp, hbf⟩ := preserve_seed_ok hbn hcur
  obtain ⟨sm, hs⟩ := same_path_query_ok hbf hcur
  unfold buildNavigate
  rw [hn]
  dsimp only
  rw [hp]
  dsimp only
  rw [hs]
  dsimp only
  cases sm with
  | true => exact ⟨.scroll true false, by rw [if_pos rfl]⟩
  | false => exact ⟨.navigate fu false false, by rw [if_neg (bool_ne_true rfl)]⟩

theorem dget_dset_self (d : Decision) (k : String) (v dflt : PyV) :
    dget (dset d k v) k dflt = v := by
  simp only [dget, lookup_dset_self, Option.getD_some]

theorem dget_dset_other (d : Decision) (k : String) (v : PyV) (k2 : String)
    (hne : k2 ≠ k) (dflt : PyV) : dget (dset d k v) k2 dflt = dget d k2 dflt := by
  simp only [dget, lookup_dset_other d k v k2 hne]

/-- Shape of a successful `validate_and_fix`: the result is the input
dict, possibly with its `text` key set to some string; a pass-through
happens exactly for the four candidate-free actions, while the
candidate actions come with a parseable in-range `candidate_id` and,
unless the action is `click` or a truthy `text` was already present, a
`text` value set by inference. -/
theorem validate_shape (d : Decision) (cands : List Candidate) (fixed : Decision)
    (hv : validate_and_fix d cands = some fixed) :
    (fixed = d ∨ ∃ t, fixed = dset d "text" (.vstr t)) ∧
    ((pyEq (dget d "action" (.vstr "")) "done"
        || pyEq (dget d "action" (.vstr "")) "scroll_down"
        || pyEq (dget d "action" (.vstr "")) "scroll_up"
        || pyEq (dget d "action" (.vstr "")) "navigate") = true
     ∨ ((pyEq (dget d "action" (.vstr "")) "click"
          || pyEq (dget d "action" (.vstr "")) "type"
          || pyEq (dget d "action" (.vstr "")) "select") = true ∧
        (∃ v cid, d.lookup "candidate_id" = some v ∧ py_int v = some cid ∧
          0 ≤ cid ∧ cid < (cands.length : Int)) ∧
        ((fixed = d ∧ (pyEq (dget d "action" (.vstr "")) "click" = true ∨
            pyTruthy (dget d "text" (.vstr "")) = true))
         ∨ ∃ t, fixed = dset d "text" (.vstr t)))) := by
  unfold validate_and_fix at hv
  dsimp only at hv
  split at hv
  · rename_i h1
    injection hv with hv
    exact ⟨Or.inl hv.symm, Or.inl h1⟩
  · split at hv
    · rename_i h1 h2
      cases hpi : py_int (dget d "candidate_id" (PyV.vint (-1))) with
      | none => rw [hpi] at hv; exact Option.noConfusion hv
      | some cid =>
        rw [hpi] at hv
        dsimp only at hv
        split at hv
        · exact Option.noConfusion hv
        · rename_i h3
          have h30 : 0 ≤ cid ∧ cid < (cands.length : Int) := by push_neg at h3; exact h3
          have hcid : ∃ v c2, d.lookup "candidate_id" = some v ∧ py_int v = some c2 ∧
              0 ≤ c2 ∧ c2 < (cands.length : Int) := by
            cases hlk : d.lookup "candidate_id" with
            | none =>
              exfalso
              simp only [dget, hlk, Option.getD_none, py_int, Option.some.injEq] at hpi
              omega
            | some v =>
              refine ⟨v, cid, rfl, ?_, h30.1, h30.2⟩
              simpa only [dget, hlk, Option.getD_some] using hpi
          split at hv
          · rename_i h4
            injection hv with hv
            exact ⟨Or.inl hv.symm, Or.inr ⟨h2, hcid, Or.inl ⟨hv.symm, Or.inl h4⟩⟩⟩
          · split at hv
            · split at hv
              · split at hv
                · injection hv with hv
                  exact ⟨Or.inr ⟨_, hv.symm⟩, Or.inr ⟨h2, hcid, Or.inr ⟨_, hv.symm⟩⟩⟩
                · split at hv
                  · injection hv with hv
                    exact ⟨Or.inr ⟨_, hv.symm⟩, Or.inr ⟨h2, hcid, Or.inr ⟨_, hv.symm⟩⟩⟩
                  · split at hv
                    · injection hv with hv
                      exact ⟨Or.inr ⟨_, hv.symm⟩, Or.inr ⟨h2, hcid, Or.inr ⟨_, hv.symm⟩⟩⟩
                    · split at hv
                      · injection hv with hv
                        exact ⟨Or.inr ⟨_, hv.symm⟩, Or.inr ⟨h2, hcid, Or.inr ⟨_, hv.symm⟩⟩⟩
                      · exact Option.noConfusion hv
              · rename_i h6
                injection hv with hv
                have h6x := not_not.mp h6
                exact ⟨Or.inl hv.symm, Or.inr ⟨h2, hcid, Or.inl ⟨hv.symm, Or.inr h6x⟩⟩⟩
            · split at hv
              · split at hv
                · injection hv with hv
                  exact ⟨Or.inr ⟨_, hv.symm⟩, Or.inr ⟨h2, hcid, Or.inr ⟨_, hv.symm⟩⟩⟩
                · exact Option.noConfusion hv
              · rename_i h6
                injection hv with hv
                have h6x := not_not.mp h6
                exact ⟨Or.inl hv.symm, Or.inr ⟨h2, hcid, Or.inl ⟨hv.symm, Or.inr h6x⟩⟩⟩
    · exact Option.noConfusion hv

/-- C1 (amended): on decision dicts as typed by the LLM decision data
model (the `text` and `url` fields, when present, hold a string or
`None`) whose `url` value and current URL contain no square bracket —
the trigger of the `Invalid IPv6 URL` `ValueError` of `urlsplit` —
`build_action` never raises: it always returns an `Except.ok`; and it
returns `ok none` exactly when the decision's `action` is the string
`"done"`; every other such input, including unrecognized action names
and validation failures, yields some action. -/
theorem build_action_total_none_iff_done (d : Decision) (cands : List Candidate)
    (cur : String) (si : Int) (hwt : decisionWellTyped d)
    (hcur : bracketFree cur = true)
    (hurl : ∀ s, d.lookup "url" = some (PyV.vstr s) → bracketFree s = true) :
    (∃ r, build_action d cands cur si = .ok r) ∧
    (build_action d cands cur si = .ok none ↔
      pyEq (dget d "action" (.vstr "")) "done" = true) := by
  cases hdone : pyEq (dget d "action" (PyV.vstr "")) "done" with
  | true =>
    have hc : (pyEq (dget d "action" (PyV.vstr "")) "done"
        || pyEq (dget d "action" (PyV.vstr "")) "scroll_down"
        || pyEq (dget d "action" (PyV.vstr "")) "scroll_up"
        || pyEq (dget d "action" (PyV.vstr "")) "navigate") = true := by
      rw [hdone]; simp
    have hv : validate_and_fix d cands = some d := by
      unfold validate_and_fix
      dsimp only
      rw [if_pos hc]
    have hb : build_action d cands cur si = .ok none := by
      unfold build_action
      rw [hv]
      dsimp only
      rw [if_pos hdone]
    refine ⟨⟨none, hb⟩, ?_⟩
    rw [hb]
    exact iff_of_true rfl rfl
  | false =>
    suffices hs : ∃ a, build_action d cands cur si = .ok (some a) by
      obtain ⟨a, ha⟩ := hs
      refine ⟨⟨some a, ha⟩, ?_⟩
      rw [ha]
      constructor
      · intro h
        exact Option.noConfusion (Except.ok.inj h)
      · intro h
        exact Bool.noConfusion h
    cases hv : validate_and_fix d cands with
    | none =>
      unfold build_action
      rw [hv]
      dsimp only
      by_cases h5 : si < 5 ∧ cands ≠ []
      · rw [if_pos h5]
        cases hf : cands.find? (fun c =>
            let label := pyLower (if c.label ≠ "" then c.label
                                  else if c.text ≠ "" then c.text else "")
            ["submit", "log in", "sign in", "login", "signin"].any
              (fun kw => pyInStr kw label)) with
        | some c => exact ⟨_, rfl⟩
        | none => exact ⟨_, rfl⟩
      · rw [if_neg h5]; exact ⟨_, rfl⟩
    | some fixed =>
      obtain ⟨hfix, hbranch⟩ := validate_shape d cands fixed hv
      have hact : dget fixed "action" (PyV.vstr "") = dget d "action" (PyV.vstr "") := by
        rcases hfix with h | ⟨t, h⟩
        · rw [h]
        · rw [h, dget_dset_other d "text" (PyV.vstr t) "action" (by decide)]
      have hueq : dget fixed "url" (PyV.vstr "") = dget d "url" (PyV.vstr "") := by
        rcases hfix with h | ⟨t, h⟩
        · rw [h]
        · rw [h, dget_dset_other d "text" (PyV.vstr t) "url" (by decide)]
      have hcidlk : fixed.lookup "candidate_id" = d.lookup "candidate_id" := by
        rcases hfix with h | ⟨t, h⟩
        · rw [h]
        · rw [h, lookup_dset_other d "text" (PyV.vstr t) "candidate_id" (by decide)]
      unfold build_action
      rw [hv]
      dsimp only
      rw [hact, if_neg (bool_ne_true hdone)]
      cases hsd : pyEq (dget d "action" (PyV.vstr "")) "scroll_down" with
      | true => rw [if_pos rfl]; exact ⟨_, rfl⟩
      | false =>
        rw [if_neg (bool_ne_true rfl)]
        cases hsu : pyEq (dget d "action" (PyV.vstr "")) "scroll_up" with
        | true => rw [if_pos rfl]; exact ⟨_, rfl⟩
        | false =>
          rw [if_neg (bool_ne_true rfl)]
          cases hnav : pyEq (dget d "action" (PyV.vstr "")) "navigate" with
          | true =>
            rw [if_pos rfl, hueq]
            have hvurl : (∃ s, dget d "url" (PyV.vstr "") = PyV.vstr s ∧
                bracketFree s = true) ∨
                dget d "url" (PyV.vstr "") = PyV.vnone := by
              cases hlu : d.lookup "url" with
              | none =>
                refine Or.inl ⟨"", ?_, by decide⟩
                simp only [dget, hlu, Option.getD_none]
              | some v =>
                rcases hwt.2 v hlu with hvn | ⟨s, hvs⟩
                · exact Or.inr (by simp only [dget, hlu, Option.getD_some, hvn])
                · refine Or.inl ⟨s, ?_, hurl s (by rw [← hvs]; exact hlu)⟩
                  simp only [dget, hlu, Option.getD_some, hvs]
            rcases hvurl with ⟨s, hsv, hbs⟩ | hsv
            · rw [hsv]
              dsimp only
              exact buildNavigate_ok hbs hcur
            · rw [hsv]
              dsimp only
              exact buildNavigate_ok (by decide) hcur
          | false =>
            rw [if_neg (bool_ne_true rfl)]
            cases hcts : (pyEq (dget d "action" (PyV.vstr "")) "click"
                || pyEq (dget d "action" (PyV.vstr "")) "type"
                || pyEq (dget d "action" (PyV.vstr "")) "select") with
            | false => rw [if_neg (bool_ne_true rfl)]; exact ⟨_, rfl⟩
            | true =>
              rw [if_pos rfl]
              rcases hbranch with h4 | ⟨_, ⟨v, cid, hlk, hpy, h0, hlt⟩, htext⟩
              · rw [hdone, hsd, hsu, hnav] at h4
                exact absurd h4 (by decide)
              · rw [hcidlk, hlk]
                dsimp only
                rw [py_int_err_ok hpy]
                dsimp only
                rw [pyIndex_ok cands cid h0 hlt]
                dsimp only
                cases hck : pyEq (dget d "action" (PyV.vstr "")) "click" with
                | true => rw [if_pos rfl]; exact ⟨_, rfl⟩
                | false =>
                  rw [if_neg (bool_ne_true rfl)]
                  have htxt : ∃ t, dget fixed "text" (PyV.vstr "") = PyV.vstr t := by
                    rcases htext with ⟨hfd, hck2 | htru⟩ | ⟨t, hfd⟩
                    · rw [hck] at hck2
                      exact absurd hck2 (by decide)
                    · cases hlt2 : d.lookup "text" with
                      | none =>
                        exfalso
                        simp only [dget, hlt2, Option.getD_none] at htru
                        exact absurd htru (by decide)
                      | some w =>
                        rcases hwt.1 w hlt2 with hvn | ⟨s, hvs⟩
                        · exfalso
                          simp only [dget, hlt2, Option.getD_some, hvn] at htru
                          exact absurd htru (by decide)
                        · exact ⟨s, by
                            rw [hfd]
                            simp only [dget, hlt2, Option.getD_some, hvs]⟩
                    · exact ⟨t, by rw [hfd, dget_dset_self]⟩
                  obtain ⟨t, ht⟩ := htxt
                  cases hty : pyEq (dget d "action" (PyV.vstr "")) "type" with
                  | true => rw [if_pos rfl, ht]; exact ⟨_, rfl⟩
                  | false => rw [if_neg (bool_ne_true rfl), ht]; exact ⟨_, rfl⟩

/-- Witness for `build_action_total_none_iff_done`: a well-typed `done`
decision over no candidates, with a bracket-free current URL, yields
`ok none`. -/
theorem build_action_total_none_iff_done_witness :
    build_action [("action", PyV.vstr "done")] [] "http://localhost/" 99 = .ok none := by
  have hwt : decisionWellTyped [("action", PyV.vstr "done")] := by
    constructor
    · intro v h
      rw [show List.lookup "text" [("action", PyV.vstr "done")] = none from by decide] at h
      exact Option.noConfusion h
    · intro v h
      rw [show List.lookup "url" [("action", PyV.vstr "done")] = none from by decide] at h
      exact Option.noConfusion h
  have hurl : ∀ s, List.lookup "url" [("action", PyV.vstr "done")] = some (PyV.vstr s) →
      bracketFree s = true := by
    intro s h
    rw [show List.lookup "url" [("action", PyV.vstr "done")] = none from by decide] at h
    exact Option.noConfusion h
  exact (build_action_total_none_iff_done [("action", PyV.vstr "done")] []
    "http://localhost/" 99 hwt (by decide) hurl).2.mpr (by decide)

/-- C1 counterexample: a decision dict typed exactly as the LLM decision
data model can still make `build_action` raise — a navigate decision
whose url is the string `"http://["` reaches the `Invalid IPv6 URL`
`ValueError` of `urlsplit` through `normalize_url`. -/
theorem build_action_raises_invalid_ipv6 :
    decisionWellTyped [("action", PyV.vstr "navigate"), ("url", PyV.vstr "http://[")] ∧
    build_action [("action", PyV.vstr "navigate"), ("url", PyV.vstr "http://[")] []
      "http://localhost/page" 99 = .error .valueError := by
  constructor
  · constructor
    · intro v h
      rw [show List.lookup "text"
          [("action", PyV.vstr "navigate"), ("url", PyV.vstr "http://[")] = none from
          by decide] at h
      exact Option.noConfusion h
    · intro v h
      rw [show List.lookup "url"
          [("action", PyV.vstr "navigate"), ("url", PyV.vstr "http://[")]
          = some (PyV.vstr "http://[") from by decide] at h
      injection h with h
      exact Or.inr ⟨"http://[", h.symm⟩
  · rfl

end Autoppia
